
import Mathlib

/- Verification development for the nutrisuppliers ledger application.

The embedding models the two running-balance implementations of the
repository:

* src/client/src/lib/firebaseDb.ts, the Firestore client module
  (calculateTransactionBalances, getTransactions, getAllTransactions,
  getClientBalance, getMonthlyTotals, getClients);
* src/server/storage.ts, class DatabaseStorage (recalculateBalances,
  createTransaction, updateTransaction, deleteTransaction,
  getTransaction, getClientBalance, getMonthlyTotals).

Modelling conventions:

* JS number amounts are modelled as rationals (Money := Rat); the
  balance code only ever adds, subtracts and compares them.
* JS Date values are modelled as integer milliseconds since the Unix
  epoch, with the runtime environment fixed at UTC offset 0 (so the
  local-time Date constructors and toISOString agree on the calendar
  day).
* Opaque ids (Firestore document ids, SQL serial ids) are modelled as
  Nat.
* Array.prototype.sort with a comparator is stable (ES2019); it is
  modelled by the insertion sort sortStable below, which is stable by
  construction: an element is placed before the first element that is
  not strictly ahead of it, so comparator ties keep input order.
* Firestore orderBy and SQL ORDER BY results are modelled with the same
  stable sort over the stored row list.  SQL leaves the relative order
  of equal-key rows unspecified, so theorems whose content depends on
  that order carry a pairwise-distinct-dates hypothesis.
-/

/-- Monetary amounts.  The sources hold JS numbers; every operation the
modelled code performs on them (addition, subtraction, comparison with
zero) is modelled exactly on the rationals. -/
abbrev Money : Type := Rat

/-- A ledger transaction as the Firestore client reads it (interface
Transaction in firebaseTypes.ts): converted document with id, date,
particulars, billNo, debitAmount, creditAmount, createdAt. -/
structure Transaction where
  id : Nat
  date : Int
  particulars : String
  billNo : Option String
  debitAmount : Money
  creditAmount : Money
  createdAt : Int

/-- A transaction together with its computed running balance (interface
TransactionWithBalance in firebaseTypes.ts). -/
structure TransactionWithBalance extends Transaction where
  balanceAfter : Money

/-- The sortField parameter: "date" | "createdAt". -/
inductive SortField where
  | date
  | createdAt
deriving DecidableEq

/-- The sortOrder parameter: "asc" | "desc". -/
inductive SortOrder where
  | asc
  | desc
deriving DecidableEq

/-- The field value a sort specification compares (aValue / bValue in
calculateTransactionBalances, as a getTime() integer). -/
def sortKey (sf : SortField) (t : Transaction) : Int :=
  match sf with
  | .date => t.date
  | .createdAt => t.createdAt

/-- One insertion step of the stable sort: x is placed before the first
element y that is not strictly ahead of it under the comparator order
le.  Every element passed over satisfies le y x and not le x y. -/
def insertStable (le : α → α → Bool) (x : α) : List α → List α
  | [] => [x]
  | y :: ys =>
      if le y x && !(le x y) then y :: insertStable le x ys else x :: y :: ys

/-- Stable sort, the model of JS Array.prototype.sort with a consistent
comparator (ES2019 requires sort stability) and of the modelled
database ORDER BY.  Elements whose keys tie keep their input order. -/
def sortStable (le : α → α → Bool) : List α → List α
  | [] => []
  | x :: xs => insertStable le x (sortStable le xs)

/-- The running-balance pass shared by both implementations: walk l in
the given order, update the running balance by deb t - cred t at each
element, and record the balance in an id-keyed map in which later
writes win (a JS Map.set, or an SQL UPDATE keyed by row id).

The client pass (firebaseDb.ts line 346) instantiates deb and cred with
debitAmount and creditAmount; the server pass (storage.ts line 235,
runningBalance + creditAmount - debitAmount) instantiates them with
creditAmount and debitAmount. -/
def balancePass (key : α → Nat) (deb cred : α → Money)
    (acc : Money × (Nat → Option Money)) : List α → Money × (Nat → Option Money)
  | [] => acc
  | t :: r =>
      let b := acc.1 + deb t - cred t
      balancePass key deb cred (b, fun j => if j = key t then some b else acc.2 j) r

/-- Model of the JS reduce pattern ((sum, t) => sum + g t, 0). -/
def sumBy (g : α → Money) (l : List α) : Money :=
  l.foldl (fun s t => s + g t) 0

/-- Days from 1970-01-01 of the civil date (y, m, d), for m in 1..12;
day 0 denotes the last day of the previous month (the only out-of-range
day the modelled code produces, via new Date(year, month, 0)).  This is
the standard days-from-civil computation with floor division. -/
def daysFromCivil (y m d : Int) : Int :=
  let yy := if m ≤ 2 then y - 1 else y
  let era := Int.fdiv yy 400
  let yoe := yy - era * 400
  let mp := if 2 < m then m - 3 else m + 9
  let doy := Int.fdiv (153 * mp + 2) 5 + (d - 1)
  let doe := yoe * 365 + Int.fdiv yoe 4 - Int.fdiv yoe 100 + doy
  era * 146097 + doe - 719468

/-- Milliseconds since the epoch of the JS expression
new Date(y, monthIdx, d) (local time = UTC in the modelled
environment).  monthIdx is 0-based and normalizes outside 0..11 as JS
does; day 0 yields the last day of the previous month. -/
def jsDateMs (y monthIdx d : Int) : Int :=
  let tot := y * 12 + monthIdx
  let ny := Int.fdiv tot 12
  let nm := Int.emod tot 12 + 1
  daysFromCivil ny nm d * 86400000

/-- UTC midnight of the calendar day containing ms: the model of
date.toISOString().split('T')[0] followed by new Date(thatString). -/
def dayStartMs (ms : Int) : Int :=
  Int.fdiv ms 86400000 * 86400000

/-- A client document as the balance and report code uses it (owner,
document id, createdAt).  The remaining fields (name, contact, ...) play
no role in any claim. -/
structure FsClient where
  userId : String
  id : Nat
  createdAt : Int

/-- The Firestore backing store: the client documents of all users, and
each users/u/clients/c/transactions subcollection as a list in stored
document order. -/
structure FirebaseStore where
  clients : List FsClient
  txs : String → Nat → List Transaction

/-- getClients (firebaseDb.ts lines 96-108): the user's client
documents ordered by createdAt descending. -/
def getClients (fs : FirebaseStore) (userId : String) : List FsClient :=
  sortStable (fun a b => decide (b.createdAt ≤ a.createdAt))
    (fs.clients.filter (fun c => decide (c.userId = userId)))

/-- The comparator of calculateTransactionBalances (lines 317-331):
comparison = aValue.getTime() - bValue.getTime(), negated for "desc".
As the le order of the stable sort, a may stay before b iff the
comparator does not put b strictly first. -/
def sortComparator (sf : SortField) (so : SortOrder) (a b : Transaction) : Bool :=
  match so with
  | .asc => decide (sortKey sf a ≤ sortKey sf b)
  | .desc => decide (sortKey sf b ≤ sortKey sf a)

/-- getAllTransactions (firebaseDb.ts lines 283-308): the whole
subcollection ordered by the requested field and direction.  The source
defaults (sortField "createdAt", sortOrder "asc") are passed explicitly
by the model's callers. -/
def getAllTransactions (fs : FirebaseStore) (userId : String) (clientId : Nat)
    (sortField : SortField) (sortOrder : SortOrder) : List Transaction :=
  sortStable (sortComparator sortField sortOrder) (fs.txs userId clientId)

/-- The chronological balance map of calculateTransactionBalances
(lines 334-348): sort by sortField ascending regardless of sortOrder,
then fold runningBalance = runningBalance + debitAmount - creditAmount
from 0, recording each value under the transaction's id. -/
def clientBalanceMap (transactions : List Transaction) (sortField : SortField) :
    Nat → Option Money :=
  (balancePass (fun t => t.id) (fun t => t.debitAmount) (fun t => t.creditAmount)
    (0, fun _ => none)
    (sortStable (sortComparator sortField .asc) transactions)).2

/-- calculateTransactionBalances (firebaseDb.ts lines 311-355).  The
display list is sorted by sortField/sortOrder; balances come from the
ascending chronological pass only.  balanceMap.get(id) || 0 agrees with
getD 0 on rationals: the only falsy number is 0, and 0 || 0 = 0. -/
def calculateTransactionBalances (transactions : List Transaction)
    (sortField : SortField) (sortOrder : SortOrder) : List TransactionWithBalance :=
  let sortedTransactions := sortStable (sortComparator sortField sortOrder) transactions
  let balanceMap := clientBalanceMap transactions sortField
  sortedTransactions.map (fun t =>
    { toTransaction := t, balanceAfter := (balanceMap t.id).getD 0 })

/-- getClientBalance (firebaseDb.ts lines 451-462): load all
transactions (default sort), return 0 for an empty list, else the sum
of all debits minus the sum of all credits. -/
def getClientBalance (fs : FirebaseStore) (userId : String) (clientId : Nat) :
    Money :=
  let transactions := getAllTransactions fs userId clientId .createdAt .asc
  if transactions.length = 0 then 0
  else
    sumBy (fun t => t.debitAmount) transactions
      - sumBy (fun t => t.creditAmount) transactions

/-- The transactionType filter parameter: "all" | "debit" | "credit". -/
inductive TransactionType where
  | all
  | debit
  | credit
deriving DecidableEq

/-- The filters argument of getTransactions.  startDate and endDate
stand for date-only strings, modelled as the UTC midnight millisecond
value new Date(string) yields. -/
structure GetTransactionsFilters where
  searchTerm : Option String
  transactionType : Option TransactionType
  startDate : Option Int
  endDate : Option Int
  pageSize : Option Nat
  sortField : Option SortField
  sortOrder : Option SortOrder

/-- The return shape of getTransactions. -/
structure GetTransactionsResult where
  transactions : List Transaction
  totalCount : Nat
  hasMore : Bool

/-- The search predicate of getTransactions (lines 247-253):
case-insensitive substring match on particulars or billNo. -/
def matchesSearch (searchTerm : String) (t : Transaction) : Bool :=
  let searchLower := searchTerm.toLower
  decide (searchLower.toList <:+: t.particulars.toLower.toList)
    || (t.billNo.map (fun b => decide (searchLower.toList <:+: b.toLower.toList))).getD false

/-- The client-side filter block of getTransactions (lines 246-273),
applied in source order: search term, transaction type, start date,
end date (end date is pushed to 23:59:59.999 of its day). -/
def applyTransactionFilters (filters : GetTransactionsFilters)
    (l : List Transaction) : List Transaction :=
  let l₁ := match filters.searchTerm with
    | some s => l.filter (matchesSearch s)
    | none => l
  let l₂ := match filters.transactionType with
    | some .debit => l₁.filter (fun t => decide (0 < t.debitAmount))
    | some .credit => l₁.filter (fun t => decide (0 < t.creditAmount))
    | _ => l₁
  let l₃ := match filters.startDate with
    | some s => l₂.filter (fun t => decide (s ≤ t.date))
    | none => l₂
  match filters.endDate with
  | some e => l₃.filter (fun t => decide (t.date ≤ e + 86399999))
  | none => l₃

/-- The effective page size of getTransactions: filters?.pageSize || 10
(so an explicit 0 also falls back to 10). -/
def effectivePageSize (filters : GetTransactionsFilters) : Nat :=
  match filters.pageSize with
  | some n => if n = 0 then 10 else n
  | none => 10

/-- getTransactions (firebaseDb.ts lines 196-280): order the whole
subcollection by sortField/sortOrder, truncate to the first pageSize
documents, and only then apply the client-side filters.  totalCount is
the unfiltered collection size. -/
def getTransactions (fs : FirebaseStore) (userId : String) (clientId : Nat)
    (filters : GetTransactionsFilters) : GetTransactionsResult :=
  let pageSize := effectivePageSize filters
  let sortField := filters.sortField.getD .createdAt
  let sortOrder := filters.sortOrder.getD .asc
  let docs := fs.txs userId clientId
  let totalCount := docs.length
  let page := (sortStable (sortComparator sortField sortOrder) docs).take pageSize
  { transactions := applyTransactionFilters filters page
    totalCount := totalCount
    hasMore := decide (page.length = pageSize) && decide (totalCount > pageSize) }

/-- The return shape of the client getMonthlyTotals. -/
structure MonthlyTotals where
  totalDebit : Money
  totalCredit : Money
  netAmount : Money
  transactionCount : Nat

/-- The filters getMonthlyTotals passes to getTransactions (lines
482-486): the month window as date-only strings (modelled by the UTC
midnight of the day containing each endpoint, which is what
toISOString().split('T')[0] followed by new Date gives at UTC), and
pageSize 1000. -/
def monthlyFilters (year month : Int) : GetTransactionsFilters :=
  { searchTerm := none
    transactionType := none
    startDate := some (dayStartMs (jsDateMs year (month - 1) 1))
    endDate := some (dayStartMs (jsDateMs year month 0 + 86399999))
    pageSize := some 1000
    sortField := none
    sortOrder := none }

/-- getMonthlyTotals (firebaseDb.ts lines 465-501): for every client of
the user, fetch the month's transactions through getTransactions with
pageSize 1000 and accumulate debit and credit totals and the count;
netAmount is totalCredit - totalDebit. -/
def getMonthlyTotals (fs : FirebaseStore) (userId : String) (year month : Int) :
    MonthlyTotals :=
  let acc := (getClients fs userId).foldl
    (fun (acc : Money × Money × Nat) c =>
      let result := getTransactions fs userId c.id (monthlyFilters year month)
      (acc.1 + sumBy (fun t => t.debitAmount) result.transactions,
       acc.2.1 + sumBy (fun t => t.creditAmount) result.transactions,
       acc.2.2 + result.transactions.length))
    (0, 0, 0)
  { totalDebit := acc.1
    totalCredit := acc.2.1
    netAmount := acc.2.1 - acc.1
    transactionCount := acc.2.2 }

/-- A row of the server transactions table (shared/schema.ts is not in
the sources; fields follow their use in storage.ts).  The decimal
string columns debitAmount, creditAmount, balanceAfter are modelled by
the rational value parseFloat yields on them (with the source's
x || '0' fallback for null already applied). -/
structure ServerTx where
  id : Nat
  clientId : Nat
  userId : String
  date : Int
  particulars : String
  billNo : Option String
  debitAmount : Money
  creditAmount : Money
  balanceAfter : Money

/-- The SQL database: the transactions table in insertion order, plus
the serial id counter. -/
structure ServerStore where
  rows : List ServerTx
  nextId : Nat

/-- The InsertTransaction payload of createTransaction (userId omitted,
balanceAfter assigned by the method).  debitAmount and creditAmount are
optional; the source applies parseFloat(x || '0'). -/
structure InsertTransactionData where
  clientId : Nat
  date : Int
  particulars : String
  billNo : Option String
  debitAmount : Option Money
  creditAmount : Option Money

/-- The Partial InsertTransaction payload of updateTransaction (userId
and balanceAfter excluded by its type). -/
structure UpdateTransactionData where
  clientId : Option Nat
  date : Option Int
  particulars : Option String
  billNo : Option (Option String)
  debitAmount : Option Money
  creditAmount : Option Money

namespace DatabaseStorage

/-- The rows of one client of one user, in stored order (the WHERE
clause shared by every per-client query in storage.ts). -/
def clientRows (s : ServerStore) (clientId : Nat) (userId : String) :
    List ServerTx :=
  s.rows.filter (fun r => decide (r.clientId = clientId) && decide (r.userId = userId))

/-- ORDER BY transactions.date (ascending). -/
def byDateAsc (a b : ServerTx) : Bool :=
  decide (a.date ≤ b.date)

/-- ORDER BY desc(transactions.date). -/
def byDateDesc (a b : ServerTx) : Bool :=
  decide (b.date ≤ a.date)

/-- The balance values recalculateBalances (storage.ts lines 224-242)
computes for a set of client rows: a date-ascending pass with
runningBalance = runningBalance + creditAmount - debitAmount from 0,
keyed by row id. -/
def recalcMap (rows : List ServerTx) : Nat → Option Money :=
  (balancePass (fun r => r.id) (fun r => r.creditAmount) (fun r => r.debitAmount)
    (0, fun _ => none) (sortStable byDateAsc rows)).2

/-- One UPDATE of the recalculateBalances write loop applied to the
whole table: the UPDATE is keyed by row id only (line 240), so applying
an id-keyed map models the loop's writes.  The loop reads the row set
once up front and the writes touch only balanceAfter, so later writes
never change what earlier iterations computed. -/
def applyBalance (m : Nat → Option Money) (r : ServerTx) : ServerTx :=
  match m r.id with
  | some v => { r with balanceAfter := v }
  | none => r

/-- The write loop applied to the whole table: rows whose id the map
holds get the recorded balance, every other row is untouched. -/
def applyBalances (m : Nat → Option Money) (rows : List ServerTx) :
    List ServerTx :=
  rows.map (applyBalance m)

/-- recalculateBalances (storage.ts lines 224-242): reload the client's
rows ordered by date ascending, rerun the running balance, and write
each row's new balanceAfter back. -/
def recalculateBalances (s : ServerStore) (clientId : Nat) (userId : String) :
    ServerStore :=
  { s with rows := applyBalances (recalcMap (clientRows s clientId userId)) s.rows }

/-- The balance values the first k iterations of the recalculateBalances
write loop have committed: the running-balance fold over the first k
rows of the date-ascending list. -/
def recalcMapUpTo (s : ServerStore) (clientId : Nat) (userId : String)
    (k : Nat) : Nat → Option Money :=
  (balancePass (fun r => r.id) (fun r => r.creditAmount) (fun r => r.debitAmount)
    (0, fun _ => none)
    ((sortStable byDateAsc (clientRows s clientId userId)).take k)).2

/-- The store after only the first k iterations of the recalculateBalances
write loop have committed (the loop walks the date-ascending row list and
awaits one UPDATE per row; k at least the row count gives the full pass). -/
def recalculateBalancesUpTo (s : ServerStore) (clientId : Nat) (userId : String)
    (k : Nat) : ServerStore :=
  { s with rows := applyBalances (recalcMapUpTo s clientId userId k) s.rows }

/-- createTransaction (storage.ts lines 159-186): read the latest row
of the client by date descending (limit 1), take its stored
balanceAfter (or 0 when the client has no rows), set the new row's
balanceAfter to previousBalance + creditAmount - debitAmount, and
insert the new row.  No other row is touched. -/
def createTransaction (s : ServerStore) (t : InsertTransactionData)
    (userId : String) : ServerTx × ServerStore :=
  let latestTransactions := (sortStable byDateDesc (clientRows s t.clientId userId)).take 1
  let previousBalance := (latestTransactions.head?.map (fun r => r.balanceAfter)).getD 0
  let debitAmount := t.debitAmount.getD 0
  let creditAmount := t.creditAmount.getD 0
  let balanceAfter := previousBalance + creditAmount - debitAmount
  let newTransaction : ServerTx :=
    { id := s.nextId
      clientId := t.clientId
      userId := userId
      date := t.date
      particulars := t.particulars
      billNo := t.billNo
      debitAmount := debitAmount
      creditAmount := creditAmount
      balanceAfter := balanceAfter }
  (newTransaction, { rows := s.rows ++ [newTransaction], nextId := s.nextId + 1 })

/-- getTransaction (storage.ts lines 151-157): the first row matching
id and userId. -/
def getTransaction (s : ServerStore) (id : Nat) (userId : String) :
    Option ServerTx :=
  (s.rows.filter (fun r => decide (r.id = id) && decide (r.userId = userId))).head?

/-- The SET clause of updateTransaction: overwrite exactly the fields
present in the partial payload. -/
def applyUpdate (p : UpdateTransactionData) (r : ServerTx) : ServerTx :=
  { r with
    clientId := p.clientId.getD r.clientId
    date := p.date.getD r.date
    particulars := p.particulars.getD r.particulars
    billNo := p.billNo.getD r.billNo
    debitAmount := p.debitAmount.getD r.debitAmount
    creditAmount := p.creditAmount.getD r.creditAmount }

/-- updateTransaction (storage.ts lines 188-206): return undefined when
the row does not exist; otherwise update the matching rows, then run
recalculateBalances for the updated row's client.  The returned row is
the updated row as the UPDATE returned it, before the recalculation
rewrote balances. -/
def updateTransaction (s : ServerStore) (id : Nat) (p : UpdateTransactionData)
    (userId : String) : Option ServerTx × ServerStore :=
  match getTransaction s id userId with
  | none => (none, s)
  | some existing =>
      let rows := s.rows.map (fun r =>
        if r.id = id ∧ r.userId = userId then applyUpdate p r else r)
      let updated := applyUpdate p existing
      (some updated,
        recalculateBalances { s with rows := rows } updated.clientId userId)

/-- deleteTransaction (storage.ts lines 208-222): return false when the
row does not exist; otherwise delete it and, if a row was removed, run
recalculateBalances for the deleted row's client. -/
def deleteTransaction (s : ServerStore) (id : Nat) (userId : String) :
    Bool × ServerStore :=
  match getTransaction s id userId with
  | none => (false, s)
  | some t =>
      let remaining := s.rows.filter (fun r =>
        !(decide (r.id = id) && decide (r.userId = userId)))
      if remaining.length < s.rows.length then
        (true, recalculateBalances { s with rows := remaining } t.clientId userId)
      else (false, { s with rows := remaining })

/-- DatabaseStorage.getClientBalance (storage.ts lines 278-287): the
stored balanceAfter of the client's latest row by date descending, or
the string '0' (modelled as 0) when the client has no rows. -/
def getClientBalance (s : ServerStore) (clientId : Nat) (userId : String) :
    Money :=
  let latestTransaction := (sortStable byDateDesc (clientRows s clientId userId)).take 1
  (latestTransaction.head?.map (fun r => r.balanceAfter)).getD 0

/-- The return shape of DatabaseStorage.getMonthlyTotals (decimal
strings modelled as rationals). -/
structure MonthlyTotalsRow where
  totalCredits : Money
  totalDebits : Money
  netBalance : Money

/-- DatabaseStorage.getMonthlyTotals (storage.ts lines 244-276): sum
credit and debit over every row of the user dated between new
Date(year, month - 1, 1) and new Date(year, month, 0), both midnight
values, inclusive; netBalance is totalCredits - totalDebits. -/
def getMonthlyTotals (s : ServerStore) (userId : String) (year month : Int) :
    MonthlyTotalsRow :=
  let startDate := jsDateMs year (month - 1) 1
  let endDate := jsDateMs year month 0
  let monthlyTransactions := s.rows.filter (fun r =>
    decide (r.userId = userId) && decide (startDate ≤ r.date)
      && decide (r.date ≤ endDate))
  let totalCredits := sumBy (fun r => r.creditAmount) monthlyTransactions
  let totalDebits := sumBy (fun r => r.debitAmount) monthlyTransactions
  { totalCredits := totalCredits
    totalDebits := totalDebits
    netBalance := totalCredits - totalDebits }

end DatabaseStorage

/-- Month membership of a timestamp, written from the spec's words: at
or after the midnight starting the first day of Gregorian month m of
year y, and before the midnight starting the next month. -/
def inGregorianMonth (y m ms : Int) : Bool :=
  decide (jsDateMs y (m - 1) 1 ≤ ms) && decide (ms < jsDateMs y m 1)

/-- The server row corresponding to a client transaction, for a given
owning client and user and an initial stored balanceAfter value. -/
def rowOfTx (clientId : Nat) (userId : String) (b : Money) (t : Transaction) :
    ServerTx :=
  { id := t.id
    clientId := clientId
    userId := userId
    date := t.date
    particulars := t.particulars
    billNo := t.billNo
    debitAmount := t.debitAmount
    creditAmount := t.creditAmount
    balanceAfter := b }

/-- The getTransactions filters argument with every field absent. -/
def noFilters : GetTransactionsFilters :=
  { searchTerm := none
    transactionType := none
    startDate := none
    endDate := none
    pageSize := none
    sortField := none
    sortOrder := none }

/-- Scenario fixture (spec section 8): 500 debit, then 200 credit, then
300 debit, in date order. -/
def txA : Transaction :=
  { id := 1, date := 1, particulars := "goods", billNo := none
    debitAmount := 500, creditAmount := 0, createdAt := 1 }

/-- Scenario fixture, second transaction. -/
def txB : Transaction :=
  { id := 2, date := 5, particulars := "payment", billNo := none
    debitAmount := 0, creditAmount := 200, createdAt := 2 }

/-- Scenario fixture, third transaction. -/
def txC : Transaction :=
  { id := 3, date := 10, particulars := "goods", billNo := none
    debitAmount := 300, creditAmount := 0, createdAt := 3 }

/-- A single debit-only transaction of 100. -/
def txDebit100 : Transaction :=
  { id := 1, date := 1, particulars := "d", billNo := none
    debitAmount := 100, creditAmount := 0, createdAt := 1 }

/-- A single credit-only transaction of 100. -/
def txCredit100 : Transaction :=
  { id := 1, date := 1, particulars := "c", billNo := none
    debitAmount := 0, creditAmount := 100, createdAt := 1 }

/-- An entirely empty Firestore backing store. -/
def emptyFirebaseStore : FirebaseStore :=
  { clients := [], txs := fun _ _ => [] }

/-- Eleven transactions with strictly increasing createdAt. -/
def fs11txs : List Transaction :=
  (List.range 11).map (fun i =>
    { id := i + 1, date := i, particulars := "p", billNo := none
      debitAmount := 0, creditAmount := 0, createdAt := i })

/-- A Firestore store whose every transaction subcollection holds the
eleven fs11txs documents. -/
def fs11 : FirebaseStore :=
  { clients := [{ userId := "u", id := 1, createdAt := 0 }]
    txs := fun _ _ => fs11txs }

/-- A server row with a 100 debit on date 1 and a stale stored balance. -/
def c7row1 : ServerTx :=
  { id := 1, clientId := 1, userId := "u", date := 1, particulars := "a"
    billNo := none, debitAmount := 100, creditAmount := 0, balanceAfter := 100 }

/-- A server row with a 50 credit on date 2 and a stale stored balance. -/
def c7row2 : ServerTx :=
  { id := 2, clientId := 1, userId := "u", date := 2, particulars := "b"
    billNo := none, debitAmount := 0, creditAmount := 50, balanceAfter := 37 }

/-- A two-row server store whose stored balances are both stale. -/
def c7store : ServerStore :=
  { rows := [c7row1, c7row2], nextId := 3 }

/-- createTransaction payload: 100 credit dated day 10 for client 7. -/
def c3ins1 : InsertTransactionData :=
  { clientId := 7, date := 10, particulars := "sale", billNo := none
    debitAmount := none, creditAmount := some 100 }

/-- createTransaction payload: backdated 100 debit dated day 1 for
client 7. -/
def c3ins2 : InsertTransactionData :=
  { clientId := 7, date := 1, particulars := "backdated", billNo := none
    debitAmount := some 100, creditAmount := none }

/-- The server store after creating c3ins1 and then the backdated
c3ins2 on an empty store. -/
def c3store : ServerStore :=
  (DatabaseStorage.createTransaction
    (DatabaseStorage.createTransaction { rows := [], nextId := 1 } c3ins1 "u").2
    c3ins2 "u").2

/-- Monthly-totals scenario, first client: debit 1000 on 2024-02-05 and
credit 400 on 2024-02-10. -/
def c5txs1 : List Transaction :=
  [{ id := 1, date := jsDateMs 2024 1 5, particulars := "d", billNo := none
     debitAmount := 1000, creditAmount := 0, createdAt := 1 },
   { id := 2, date := jsDateMs 2024 1 10, particulars := "c", billNo := none
     debitAmount := 0, creditAmount := 400, createdAt := 2 }]

/-- Monthly-totals scenario, second client: debit 200 on 2024-02-29. -/
def c5txs2 : List Transaction :=
  [{ id := 3, date := jsDateMs 2024 1 29, particulars := "d", billNo := none
     debitAmount := 200, creditAmount := 0, createdAt := 3 }]

/-- Monthly-totals scenario store: one user with two clients. -/
def c5fs : FirebaseStore :=
  { clients := [{ userId := "u", id := 1, createdAt := 1 },
                { userId := "u", id := 2, createdAt := 2 }]
    txs := fun u c =>
      if u = "u" then (if c = 1 then c5txs1 else if c = 2 then c5txs2 else [])
      else [] }

/-- Monthly-totals scenario as server rows (clients 1 and 2 of user
"u"). -/
def c5store : ServerStore :=
  { rows :=
      [{ id := 1, clientId := 1, userId := "u", date := jsDateMs 2024 1 5
         particulars := "d", billNo := none, debitAmount := 1000
         creditAmount := 0, balanceAfter := 0 },
       { id := 2, clientId := 1, userId := "u", date := jsDateMs 2024 1 10
         particulars := "c", billNo := none, debitAmount := 0
         creditAmount := 400, balanceAfter := 0 },
       { id := 3, clientId := 2, userId := "u", date := jsDateMs 2024 1 29
         particulars := "d", billNo := none, debitAmount := 200
         creditAmount := 0, balanceAfter := 0 }]
    nextId := 4 }

/-- A transaction of debit 5 dated 2024-02-05. -/
def c5bigTx : Transaction :=
  { id := 1, date := jsDateMs 2024 1 5, particulars := "p", billNo := none
    debitAmount := 5, creditAmount := 0, createdAt := 0 }

/-- A transaction of debit 7 dated 2024-02-06. -/
def c5bigTx2 : Transaction :=
  { id := 2, date := jsDateMs 2024 1 6, particulars := "q", billNo := none
    debitAmount := 7, creditAmount := 0, createdAt := 0 }

/-- One thousand copies of c5bigTx followed by c5bigTx2: 1001 documents
all dated inside February 2024. -/
def c5bigList : List Transaction :=
  List.replicate 1000 c5bigTx ++ [c5bigTx2]

/-- A store holding the 1001-document subcollection for one client. -/
def c5bigFs : FirebaseStore :=
  { clients := [{ userId := "u", id := 1, createdAt := 0 }]
    txs := fun _ _ => c5bigList }

/-- An updateTransaction payload that changes no field. -/
def noPatch : UpdateTransactionData :=
  { clientId := none, date := none, particulars := none, billNo := none
    debitAmount := none, creditAmount := none }

/-- What the client getMonthlyTotals actually aggregates for one
client: only the first 1000 documents of the createdAt-ascending order,
filtered to the Gregorian month. -/
def monthContrib (fs : FirebaseStore) (userId : String) (y m : Int)
    (clientId : Nat) : List Transaction :=
  ((sortStable (sortComparator .createdAt .asc) (fs.txs userId clientId)).take
    1000).filter (fun t => inGregorianMonth y m t.date)

theorem insertStable_perm (le : α → α → Bool) (x : α) (l : List α) :
    (insertStable le x l).Perm (x :: l) := by
  induction l with
  | nil => simp [insertStable]
  | cons y ys ih =>
    by_cases h : (le y x && !(le x y)) = true
    · simp only [insertStable, h, if_true]
      exact (ih.cons y).trans (List.Perm.swap x y ys)
    · simp [insertStable, h]

theorem sortStable_perm (le : α → α → Bool) (l : List α) :
    (sortStable le l).Perm l := by
  induction l with
  | nil => exact List.Perm.refl _
  | cons x xs ih => exact (insertStable_perm le x _).trans (ih.cons x)

theorem mem_sortStable (le : α → α → Bool) (l : List α) (a : α) :
    a ∈ sortStable le l ↔ a ∈ l :=
  (sortStable_perm le l).mem_iff

theorem length_sortStable (le : α → α → Bool) (l : List α) :
    (sortStable le l).length = l.length :=
  (sortStable_perm le l).length_eq

theorem filter_insertStable_neg (le : α → α → Bool) (p : α → Bool) (x : α)
    (l : List α) (hx : p x = false) :
    (insertStable le x l).filter p = l.filter p := by
  induction l with
  | nil => simp [insertStable, hx]
  | cons y ys ih =>
    by_cases h : (le y x && !(le x y)) = true
    · simp only [insertStable, h, if_true, List.filter_cons]
      rw [ih]
    · simp [insertStable, h, List.filter_cons, hx]

theorem filter_insertStable_pos (le : α → α → Bool) (p : α → Bool) (x : α)
    (l : List α) (hx : p x = true)
    (h : ∀ z ∈ l, p z = true → le x z = true) :
    (insertStable le x l).filter p = x :: l.filter p := by
  induction l with
  | nil => simp [insertStable, hx]
  | cons y ys ih =>
    by_cases hc : (le y x && !(le x y)) = true
    · have hy : p y = false := by
        cases hpy : p y with
        | false => rfl
        | true =>
          have hxy := h y (by simp) hpy
          simp [hxy] at hc
      simp only [insertStable, hc, if_true, List.filter_cons, hy]
      rw [ih (fun z hz hpz => h z (by simp [hz]) hpz)]
      simp [hy]
    · simp [insertStable, hc, List.filter_cons, hx]

/-- Stability of sortStable: the elements of any comparator-tied class
appear in the output exactly in their input order. -/
theorem sortStable_filter (le : α → α → Bool) (p : α → Bool) (l : List α)
    (h : ∀ a b, p a = true → p b = true → le a b = true) :
    (sortStable le l).filter p = l.filter p := by
  induction l with
  | nil => rfl
  | cons x xs ih =>
    cases hx : p x with
    | false =>
      rw [sortStable, filter_insertStable_neg le p x _ hx, ih, List.filter_cons, hx]
      simp
    | true =>
      rw [sortStable, filter_insertStable_pos le p x _ hx
        (fun z _ hpz => h x z hx hpz), ih, List.filter_cons, hx]
      simp

theorem insertStable_map (le₁ : α → α → Bool) (le₂ : β → β → Bool) (f : α → β)
    (hle : ∀ a b, le₂ (f a) (f b) = le₁ a b) (x : α) (l : List α) :
    insertStable le₂ (f x) (l.map f) = (insertStable le₁ x l).map f := by
  induction l with
  | nil => simp [insertStable]
  | cons y ys ih =>
    simp only [List.map_cons, insertStable, hle]
    by_cases h : (le₁ y x && !(le₁ x y)) = true
    · simp [h, ih]
    · simp [h]

theorem sortStable_map (le₁ : α → α → Bool) (le₂ : β → β → Bool) (f : α → β)
    (hle : ∀ a b, le₂ (f a) (f b) = le₁ a b) (l : List α) :
    sortStable le₂ (l.map f) = (sortStable le₁ l).map f := by
  induction l with
  | nil => rfl
  | cons x xs ih =>
    simp only [List.map_cons, sortStable, ih]
    exact insertStable_map le₁ le₂ f hle x _

theorem insertStable_head (le : α → α → Bool) (x : α) (l : List α)
    (h : ∀ z ∈ l, le x z = true) :
    insertStable le x l = x :: l := by
  cases l with
  | nil => rfl
  | cons y ys =>
    have hxy : le x y = true := h y (by simp)
    simp [insertStable, hxy]

theorem sortStable_of_pairwise (le : α → α → Bool) (l : List α)
    (h : l.Pairwise (fun a b => le a b = true)) :
    sortStable le l = l := by
  induction l with
  | nil => rfl
  | cons x xs ih =>
    rw [sortStable, ih h.of_cons, insertStable_head]
    exact fun z hz => List.rel_of_pairwise_cons h hz

theorem balancePass_fst (key : α → Nat) (deb cred : α → Money) (l : List α)
    (b₀ : Money) (m₀ : Nat → Option Money) :
    (balancePass key deb cred (b₀, m₀) l).1
      = b₀ + (l.map (fun t => deb t - cred t)).sum := by
  induction l generalizing b₀ m₀ with
  | nil => simp [balancePass]
  | cons t r ih =>
    simp only [balancePass, List.map_cons, List.sum_cons]
    rw [ih]
    ring

theorem balancePass_lookup_not_mem (key : α → Nat) (deb cred : α → Money)
    (l : List α) (b₀ : Money) (m₀ : Nat → Option Money) (i : Nat)
    (h : i ∉ l.map key) :
    (balancePass key deb cred (b₀, m₀) l).2 i = m₀ i := by
  induction l generalizing b₀ m₀ with
  | nil => rfl
  | cons t r ih =>
    simp only [List.map_cons, List.mem_cons, not_or] at h
    simp only [balancePass]
    rw [ih _ _ h.2]
    simp [h.1]

theorem balancePass_lookup_mem (key : α → Nat) (deb cred : α → Money)
    (l : List α) (b₀ : Money) (m₀ : Nat → Option Money) (i : Nat)
    (h : i ∈ l.map key) :
    ∃ v, (balancePass key deb cred (b₀, m₀) l).2 i = some v := by
  induction l generalizing b₀ m₀ with
  | nil => simp at h
  | cons t r ih =>
    simp only [balancePass]
    by_cases hr : i ∈ r.map key
    · exact ih _ _ hr
    · have hi : i = key t := by
        simp only [List.map_cons, List.mem_cons] at h
        exact h.resolve_right hr
      refine ⟨b₀ + deb t - cred t, ?_⟩
      rw [balancePass_lookup_not_mem key deb cred r _ _ i hr]
      simp [hi]

theorem balancePass_lookup_getLast (key : α → Nat) (deb cred : α → Money)
    (l : List α) (hne : l ≠ []) (b₀ : Money) (m₀ : Nat → Option Money) :
    (balancePass key deb cred (b₀, m₀) l).2 (key (l.getLast hne))
      = some (balancePass key deb cred (b₀, m₀) l).1 := by
  induction l generalizing b₀ m₀ with
  | nil => exact absurd rfl hne
  | cons t r ih =>
    cases r with
    | nil => simp [balancePass]
    | cons u s =>
      rw [List.getLast_cons (by simp : u :: s ≠ [])]
      simp only [balancePass]
      exact ih (by simp) _ _

/-- Swapping the debit and credit field selectors negates both the
running balance and every recorded map entry. -/
theorem balancePass_swap (key : α → Nat) (deb cred : α → Money) (l : List α)
    (b₀ : Money) (m₁ m₂ : Nat → Option Money)
    (h : ∀ i, m₂ i = (m₁ i).map (fun v => -v)) (i : Nat) :
    (balancePass key cred deb (-b₀, m₂) l).2 i
      = ((balancePass key deb cred (b₀, m₁) l).2 i).map (fun v => -v) := by
  induction l generalizing b₀ m₁ m₂ with
  | nil => simpa [balancePass] using h i
  | cons t r ih =>
    simp only [balancePass]
    have hb : -b₀ + cred t - deb t = -(b₀ + deb t - cred t) := by ring
    rw [hb]
    exact ih _ _ _
      (fun j => by by_cases hj : j = key t <;> simp [hj, h j]) 

theorem balancePass_map (f : α → β) (key : β → Nat) (deb cred : β → Money)
    (l : List α) (acc : Money × (Nat → Option Money)) :
    balancePass key deb cred acc (l.map f)
      = balancePass (fun a => key (f a)) (fun a => deb (f a)) (fun a => cred (f a))
          acc l := by
  induction l generalizing acc with
  | nil => rfl
  | cons t r ih => simp only [List.map_cons, balancePass, ih]

theorem sumBy_from (g : α → Money) (l : List α) (s : Money) :
    l.foldl (fun s t => s + g t) s = s + (l.map g).sum := by
  induction l generalizing s with
  | nil => simp
  | cons t r ih =>
    simp only [List.foldl_cons, List.map_cons, List.sum_cons, ih]
    ring

theorem sumBy_eq_sum (g : α → Money) (l : List α) :
    sumBy g l = (l.map g).sum := by
  simpa [sumBy] using sumBy_from g l 0

theorem sumBy_perm (g : α → Money) {l₁ l₂ : List α} (h : l₁.Perm l₂) :
    sumBy g l₁ = sumBy g l₂ := by
  rw [sumBy_eq_sum, sumBy_eq_sum]
  exact (h.map g).sum_eq

theorem jsDateMs_add_day (y monthIdx d : Int) :
    jsDateMs y monthIdx (d + 1) = jsDateMs y monthIdx d + 86400000 := by
  simp only [jsDateMs, daysFromCivil]
  ring

theorem dvd_jsDateMs (y monthIdx d : Int) : (86400000 : Int) ∣ jsDateMs y monthIdx d :=
  ⟨daysFromCivil (Int.fdiv (y * 12 + monthIdx) 12) (Int.emod (y * 12 + monthIdx) 12 + 1) d,
    by rw [jsDateMs]; ring⟩

theorem dayStartMs_of_aligned (ms : Int) (h : (86400000 : Int) ∣ ms) :
    dayStartMs ms = ms := by
  obtain ⟨k, hk⟩ := h
  subst hk
  rw [dayStartMs, Int.fdiv_eq_ediv _ (by norm_num)]
  have hq : (86400000 * k) / 86400000 = k := by omega
  rw [hq, Int.mul_comm]

theorem dayStartMs_add_of_aligned (ms r : Int) (h : (86400000 : Int) ∣ ms)
    (h0 : 0 ≤ r) (h1 : r < 86400000) :
    dayStartMs (ms + r) = ms := by
  obtain ⟨k, hk⟩ := h
  subst hk
  rw [dayStartMs, Int.fdiv_eq_ediv _ (by norm_num)]
  have : (86400000 * k + r) / 86400000 = k := by omega
  rw [this, Int.mul_comm]


theorem sum_map_sub (f g : α → Money) (l : List α) :
    (l.map (fun t => f t - g t)).sum = (l.map f).sum - (l.map g).sum := by
  induction l with
  | nil => simp
  | cons t r ih =>
    simp only [List.map_cons, List.sum_cons, ih]
    ring

/-- The output of calculateTransactionBalances is the display-sorted
input with a balance attached: stripping balances gives exactly the
sortField/sortOrder sort of the input. -/
theorem calculateTransactionBalances_toTransaction (ts : List Transaction)
    (sf : SortField) (so : SortOrder) :
    (calculateTransactionBalances ts sf so).map (fun t => t.toTransaction)
      = sortStable (sortComparator sf so) ts := by
  simp only [calculateTransactionBalances]
  rw [List.map_map]
  show List.map id _ = _
  exact List.map_id _

theorem mem_calculateTransactionBalances (ts : List Transaction)
    (sf : SortField) (so : SortOrder) (t : TransactionWithBalance)
    (h : t ∈ calculateTransactionBalances ts sf so) :
    t.toTransaction ∈ ts
      ∧ t.balanceAfter = ((clientBalanceMap ts sf) t.toTransaction.id).getD 0 := by
  simp only [calculateTransactionBalances, List.mem_map] at h
  obtain ⟨s, hs, rfl⟩ := h
  exact ⟨(mem_sortStable _ _ _).mp hs, rfl⟩

/-- C9: calculateTransactionBalances does not fail on degenerate input:
the empty list yields the empty list, and a one-element list yields the
single transaction with balanceAfter equal to its own net amount
debitAmount - creditAmount; in particular a lone 100 debit yields
balance 100 and a lone 100 credit yields balance -100. -/
theorem c9_empty_and_singleton :
    (∀ sf so, calculateTransactionBalances [] sf so = [])
    ∧ (∀ t sf so, calculateTransactionBalances [t] sf so
        = [{ toTransaction := t, balanceAfter := t.debitAmount - t.creditAmount }])
    ∧ (∀ sf so, (calculateTransactionBalances [txDebit100] sf so).map
        (fun t => t.balanceAfter) = [100])
    ∧ (∀ sf so, (calculateTransactionBalances [txCredit100] sf so).map
        (fun t => t.balanceAfter) = [-100]) := by
  refine ⟨fun sf so => rfl, fun t sf so => ?_, fun sf so => ?_, fun sf so => ?_⟩
  · simp [calculateTransactionBalances, clientBalanceMap, sortStable, insertStable,
      balancePass]
  · simp [calculateTransactionBalances, clientBalanceMap, sortStable, insertStable,
      balancePass, txDebit100]
  · simp [calculateTransactionBalances, clientBalanceMap, sortStable, insertStable,
      balancePass, txCredit100]

/-- C2: balances come from a single ascending chronological pass over
sortField: every output transaction's balanceAfter is the value the
ascending pass (clientBalanceMap, the fold runningBalance +
debitAmount - creditAmount from 0 over the sortField-ascending list)
recorded for its id; consequently, for the same sortField, the asc and
desc displays attach the same balanceAfter to any shared transaction
id, and sortOrder only changes the display order of the list. -/
theorem c2_single_ascending_pass :
    (∀ ts sf so t, t ∈ calculateTransactionBalances ts sf so →
        t.balanceAfter = ((clientBalanceMap ts sf) t.toTransaction.id).getD 0)
    ∧ (∀ ts sf a b, a ∈ calculateTransactionBalances ts sf .asc →
        b ∈ calculateTransactionBalances ts sf .desc →
        a.toTransaction.id = b.toTransaction.id →
        a.balanceAfter = b.balanceAfter)
    ∧ (∀ ts sf so, (calculateTransactionBalances ts sf so).map
        (fun t => t.toTransaction) = sortStable (sortComparator sf so) ts) := by
  refine ⟨fun ts sf so t ht => (mem_calculateTransactionBalances ts sf so t ht).2,
    fun ts sf a b ha hb hid => ?_,
    fun ts sf so => calculateTransactionBalances_toTransaction ts sf so⟩
  rw [(mem_calculateTransactionBalances ts sf .asc a ha).2,
    (mem_calculateTransactionBalances ts sf .desc b hb).2, hid]

/-- Witness for C2 on the three-transaction scenario: the desc display
contains txC with balance 600, which the asc display also assigns, and
which is the ascending-pass value for id 3. -/
theorem c2_witness :
    ((⟨txC, 600⟩ : TransactionWithBalance).balanceAfter
        = ((clientBalanceMap [txA, txB, txC] .date) 3).getD 0)
    ∧ ((⟨txC, 600⟩ : TransactionWithBalance).balanceAfter
        = (⟨txC, 600⟩ : TransactionWithBalance).balanceAfter) := by
  constructor
  · exact c2_single_ascending_pass.1 [txA, txB, txC] .date .desc ⟨txC, 600⟩
      (by simp [calculateTransactionBalances, clientBalanceMap, sortStable,
        insertStable, sortComparator, sortKey, balancePass, txA, txB, txC]
          norm_num)
  · exact c2_single_ascending_pass.2.1 [txA, txB, txC] .date ⟨txC, 600⟩ ⟨txC, 600⟩
      (by simp [calculateTransactionBalances, clientBalanceMap, sortStable,
        insertStable, sortComparator, sortKey, balancePass, txA, txB, txC]
          norm_num)
      (by simp [calculateTransactionBalances, clientBalanceMap, sortStable,
        insertStable, sortComparator, sortKey, balancePass, txA, txB, txC]
          norm_num)
      rfl

/-- C8: calculateTransactionBalances is deterministic and its
tie-breaking is stable: it is a pure function (equal inputs give equal
outputs), and the transactions sharing any sortField key value k appear
in the output in exactly their input order (so the order between
equal-key transactions is reproducible across calls). -/
theorem c8_determinism_and_stability :
    (∀ ts sf so, calculateTransactionBalances ts sf so
        = calculateTransactionBalances ts sf so)
    ∧ (∀ ts sf so (k : Int),
        ((calculateTransactionBalances ts sf so).filter
            (fun t => decide (sortKey sf t.toTransaction = k))).map
          (fun t => t.toTransaction)
          = ts.filter (fun t => decide (sortKey sf t = k))) := by
  refine ⟨fun ts sf so => rfl, fun ts sf so k => ?_⟩
  have hcomm :
      ((calculateTransactionBalances ts sf so).filter
          (fun t => decide (sortKey sf t.toTransaction = k))).map
        (fun t => t.toTransaction)
        = ((sortStable (sortComparator sf so) ts).filter
            (fun t => decide (sortKey sf t = k))) := by
    simp only [calculateTransactionBalances]
    rw [List.filter_map, List.map_map]
    show List.map id _ = _
    rw [List.map_id]
    apply List.filter_congr
    intro a _
    rfl
  rw [hcomm]
  apply sortStable_filter
  intro a b ha hb
  have ha2 : sortKey sf a = k := by simpa using ha
  have hb2 : sortKey sf b = k := by simpa using hb
  cases so <;> simp [sortComparator, ha2, hb2]

theorem applyBalance_id (m : Nat → Option Money) (r : ServerTx) :
    (DatabaseStorage.applyBalance m r).id = r.id := by
  rw [DatabaseStorage.applyBalance]
  cases m r.id <;> rfl

theorem applyBalance_clientId (m : Nat → Option Money) (r : ServerTx) :
    (DatabaseStorage.applyBalance m r).clientId = r.clientId := by
  rw [DatabaseStorage.applyBalance]
  cases m r.id <;> rfl

theorem applyBalance_userId (m : Nat → Option Money) (r : ServerTx) :
    (DatabaseStorage.applyBalance m r).userId = r.userId := by
  rw [DatabaseStorage.applyBalance]
  cases m r.id <;> rfl

theorem applyBalance_date (m : Nat → Option Money) (r : ServerTx) :
    (DatabaseStorage.applyBalance m r).date = r.date := by
  rw [DatabaseStorage.applyBalance]
  cases m r.id <;> rfl

theorem applyBalance_debitAmount (m : Nat → Option Money) (r : ServerTx) :
    (DatabaseStorage.applyBalance m r).debitAmount = r.debitAmount := by
  rw [DatabaseStorage.applyBalance]
  cases m r.id <;> rfl

theorem applyBalance_creditAmount (m : Nat → Option Money) (r : ServerTx) :
    (DatabaseStorage.applyBalance m r).creditAmount = r.creditAmount := by
  rw [DatabaseStorage.applyBalance]
  cases m r.id <;> rfl

theorem applyBalance_of_some (m : Nat → Option Money) (r : ServerTx) (v : Money)
    (h : m r.id = some v) :
    DatabaseStorage.applyBalance m r = { r with balanceAfter := v } := by
  rw [DatabaseStorage.applyBalance, h]

theorem applyBalance_of_none (m : Nat → Option Money) (r : ServerTx)
    (h : m r.id = none) :
    DatabaseStorage.applyBalance m r = r := by
  rw [DatabaseStorage.applyBalance, h]

/-- C10: the Firestore getTransactions sorts the subcollection by
sortField/sortOrder, truncates to the first pageSize documents (10 when
pageSize is absent), and only afterwards applies the search, type and
date filters client-side; getMonthlyTotals queries with pageSize 1000,
so it aggregates at most the first 1000 documents per client.  With
eleven stored transactions and no filters, the call returns only ten of
them, so matching transactions beyond the page are omitted. -/
theorem c10_truncates_before_filtering :
    (∀ fs userId clientId filters,
        (getTransactions fs userId clientId filters).transactions
          = applyTransactionFilters filters
              ((sortStable (sortComparator (filters.sortField.getD .createdAt)
                    (filters.sortOrder.getD .asc)) (fs.txs userId clientId)).take
                (effectivePageSize filters)))
    ∧ (∀ s t st e sf so,
        effectivePageSize
          { searchTerm := s, transactionType := t, startDate := st, endDate := e
            pageSize := none, sortField := sf, sortOrder := so } = 10)
    ∧ (∀ year month, effectivePageSize (monthlyFilters year month) = 1000)
    ∧ (getTransactions fs11 "u" 1 noFilters).transactions.length = 10
    ∧ (fs11.txs "u" 1).length = 11 := by
  refine ⟨fun fs u c f => rfl, fun s t st e sf so => rfl, fun y m => rfl, ?_, by rfl⟩
  have hsorted : sortStable (sortComparator .createdAt .asc) fs11txs = fs11txs := by
    apply sortStable_of_pairwise
    rw [fs11txs, List.pairwise_map]
    have := List.pairwise_lt_range 11
    apply this.imp
    intro a b hab
    simp [sortComparator, sortKey]
    omega
  show (applyTransactionFilters noFilters
      ((sortStable (sortComparator .createdAt .asc) fs11txs).take 10)).length = 10
  rw [hsorted]
  rfl

/-- C6 (corrected): when the requested client has no records in the
backing store (in particular when it does not exist at all), neither
getClientBalance implementation signals a NotFound condition: both are
total functions whose only behaviour on a missing client is to return
the default balance 0. -/
theorem c6_missing_client_returns_zero :
    (∀ fs userId clientId, fs.txs userId clientId = [] →
        getClientBalance fs userId clientId = 0)
    ∧ (∀ s clientId userId, DatabaseStorage.clientRows s clientId userId = [] →
        DatabaseStorage.getClientBalance s clientId userId = 0) := by
  constructor
  · intro fs u c h
    simp [getClientBalance, getAllTransactions, h, sortStable]
  · intro s c u h
    simp [DatabaseStorage.getClientBalance, h, sortStable]

/-- Witness for C6: both branches applied to entirely empty stores. -/
theorem c6_witness :
    getClientBalance emptyFirebaseStore "u" 1 = 0
    ∧ DatabaseStorage.getClientBalance { rows := [], nextId := 1 } 1 "u" = 0 :=
  ⟨c6_missing_client_returns_zero.1 emptyFirebaseStore "u" 1 rfl,
    c6_missing_client_returns_zero.2 { rows := [], nextId := 1 } 1 "u" rfl⟩

/-- C6 counterexample: in an empty backing store the client does not
exist (the user owns no client documents at all), yet both
getClientBalance implementations return the default zero balance
instead of signalling NotFound; no error value exists in either return
type. -/
theorem c6_counterexample :
    getClients emptyFirebaseStore "u" = []
    ∧ getClientBalance emptyFirebaseStore "u" 1 = 0
    ∧ DatabaseStorage.getClientBalance { rows := [], nextId := 1 } 1 "u" = 0 := by
  refine ⟨rfl, ?_, ?_⟩
  · simp [getClientBalance, getAllTransactions, sortStable, emptyFirebaseStore]
  · simp [DatabaseStorage.getClientBalance, DatabaseStorage.clientRows, sortStable]

theorem clientRows_map_rowOfTx (ts : List Transaction) (clientId nextId : Nat)
    (userId : String) (b₀ : Money) :
    DatabaseStorage.clientRows
        { rows := ts.map (rowOfTx clientId userId b₀), nextId := nextId }
        clientId userId
      = ts.map (rowOfTx clientId userId b₀) := by
  apply List.filter_eq_self.mpr
  intro r hr
  obtain ⟨t, _, rfl⟩ := List.mem_map.mp hr
  simp [rowOfTx]

/-- The server balance map over the rows of a transaction list is the
pointwise negation of the client balance map over that list (the server
folds credit - debit, the client folds debit - credit, over the same
date-ascending order). -/
theorem recalcMap_rowOfTx_neg (ts : List Transaction) (clientId : Nat)
    (userId : String) (b₀ : Money) (i : Nat) :
    DatabaseStorage.recalcMap (ts.map (rowOfTx clientId userId b₀)) i
      = ((clientBalanceMap ts .date) i).map (fun v => -v) := by
  rw [DatabaseStorage.recalcMap,
    sortStable_map (sortComparator .date .asc) DatabaseStorage.byDateAsc
      (rowOfTx clientId userId b₀) (fun a b => rfl) ts,
    balancePass_map]
  rw [clientBalanceMap]
  have h0 : (0 : Money) = -0 := by norm_num
  calc (balancePass (fun a => (rowOfTx clientId userId b₀ a).id)
          (fun a => (rowOfTx clientId userId b₀ a).creditAmount)
          (fun a => (rowOfTx clientId userId b₀ a).debitAmount)
          (0, fun _ => none)
          (sortStable (sortComparator .date .asc) ts)).2 i
      = (balancePass (fun t : Transaction => t.id)
          (fun t : Transaction => t.creditAmount)
          (fun t : Transaction => t.debitAmount) (-0, fun _ => none)
          (sortStable (sortComparator .date .asc) ts)).2 i := by rw [← h0]; rfl
    _ = ((balancePass (fun t : Transaction => t.id)
          (fun t : Transaction => t.debitAmount)
          (fun t : Transaction => t.creditAmount) (0, fun _ => none)
          (sortStable (sortComparator .date .asc) ts)).2 i).map (fun v => -v) := by
        exact balancePass_swap (fun t : Transaction => t.id)
          (fun t : Transaction => t.debitAmount)
          (fun t : Transaction => t.creditAmount)
          (sortStable (sortComparator .date .asc) ts) 0
          (fun _ => none) (fun _ => none) (fun j => rfl) i

/-- The client balance map holds a value for the id of every member of
the input list. -/
theorem clientBalanceMap_isSome (ts : List Transaction) (sf : SortField)
    (t : Transaction) (ht : t ∈ ts) :
    ∃ v, (clientBalanceMap ts sf) t.id = some v := by
  apply balancePass_lookup_mem
  exact List.mem_map.mpr ⟨t, (mem_sortStable _ _ _).mpr ht, rfl⟩

/-- C1 (corrected): the two strategies do not agree; they are exact
negations of one another.  The server recalculation (storage.ts line
235) folds runningBalance + creditAmount - debitAmount while the client
computation (firebaseDb.ts line 346) folds runningBalance +
debitAmount - creditAmount, both over the date-ascending order, so for
a fixed transaction set of one client the stored server balanceAfter of
each transaction id is minus the client-computed balanceAfter of the
same id.  The pairwise-distinct-dates hypothesis pins the database's
ORDER BY (which leaves equal-date order unspecified) to the one
chronological order both sides then share. -/
theorem c1_server_negates_client (ts : List Transaction) (clientId : Nat)
    (userId : String) (b₀ : Money) (nextId : Nat) (so : SortOrder)
    (_hdates : ts.Pairwise (fun a b => a.date ≠ b.date)) :
    ∀ t ∈ calculateTransactionBalances ts .date so,
      ∀ r ∈ (DatabaseStorage.recalculateBalances
          { rows := ts.map (rowOfTx clientId userId b₀), nextId := nextId }
          clientId userId).rows,
        r.id = t.toTransaction.id → r.balanceAfter = - t.balanceAfter := by
  intro t ht r hr hid
  obtain ⟨htmem, hbal⟩ := mem_calculateTransactionBalances ts .date so t ht
  rw [DatabaseStorage.recalculateBalances] at hr
  rw [clientRows_map_rowOfTx] at hr
  obtain ⟨r₀, hr₀, rfl⟩ := List.mem_map.mp hr
  obtain ⟨v, hv⟩ := clientBalanceMap_isSome ts .date t.toTransaction htmem
  have hid₀ : r₀.id = t.toTransaction.id := by
    rw [← hid, applyBalance_id]
  have hsv : DatabaseStorage.recalcMap (ts.map (rowOfTx clientId userId b₀)) r₀.id
      = some (-v) := by
    rw [recalcMap_rowOfTx_neg, hid₀, hv]
    rfl
  rw [applyBalance_of_some _ _ _ hsv, hbal, hv]
  rfl

/-- Witness for C1: one 100-debit transaction; the client computes
balance 500 for txA while the server stores -500. -/
theorem c1_witness :
    (rowOfTx 1 "u" (-500) txA).balanceAfter
      = -(⟨txA, 500⟩ : TransactionWithBalance).balanceAfter :=
  c1_server_negates_client [txA] 1 "u" 0 2 .asc (by simp)
    ⟨txA, 500⟩
    (by simp [calculateTransactionBalances, clientBalanceMap, sortStable,
      insertStable, sortComparator, sortKey, balancePass, txA])
    (rowOfTx 1 "u" (-500) txA)
    (by simp [DatabaseStorage.recalculateBalances, DatabaseStorage.clientRows,
      DatabaseStorage.recalcMap, DatabaseStorage.applyBalances,
      DatabaseStorage.applyBalance, DatabaseStorage.byDateAsc,
      sortStable, insertStable, balancePass, rowOfTx, txA])
    rfl

/-- C1 counterexample: for the singleton set holding one 100-debit
transaction the client strategy computes balanceAfter 100 while the
server strategy stores balanceAfter -100 for the same transaction, so
the two strategies' balances are not identical. -/
theorem c1_counterexample :
    ((calculateTransactionBalances [txDebit100] .date .asc).map
        (fun t => t.balanceAfter) = [100])
    ∧ (((DatabaseStorage.recalculateBalances
          { rows := [rowOfTx 1 "u" 0 txDebit100], nextId := 2 } 1 "u").rows.map
        (fun r => r.balanceAfter)) = [-100])
    ∧ (100 : Money) ≠ -100 := by
  refine ⟨?_, ?_, by norm_num⟩
  · simp [calculateTransactionBalances, clientBalanceMap, sortStable, insertStable,
      sortComparator, sortKey, balancePass, txDebit100]
  · simp [DatabaseStorage.recalculateBalances, DatabaseStorage.clientRows,
      DatabaseStorage.recalcMap, DatabaseStorage.applyBalances,
      DatabaseStorage.applyBalance, DatabaseStorage.byDateAsc,
      sortStable, insertStable, balancePass, rowOfTx, txDebit100]

theorem mem_insertStable (le : α → α → Bool) (x : α) (l : List α) (a : α) :
    a ∈ insertStable le x l ↔ a = x ∨ a ∈ l := by
  rw [(insertStable_perm le x l).mem_iff]
  simp

theorem insertStable_pairwise (le : α → α → Bool)
    (htot : ∀ a b, (le a b || le b a) = true) (x : α) (l : List α)
    (h : l.Pairwise (fun a b => le a b = true))
    (htr : ∀ a b c, le a b = true → le b c = true → le a c = true) :
    (insertStable le x l).Pairwise (fun a b => le a b = true) := by
  induction l with
  | nil => simp [insertStable]
  | cons y ys ih =>
    rw [List.pairwise_cons] at h
    by_cases hc : (le y x && !(le x y)) = true
    · rw [Bool.and_eq_true] at hc
      simp only [insertStable, hc.1, hc.2, Bool.and_self, if_true]
      rw [List.pairwise_cons]
      refine ⟨fun z hz => ?_, ih h.2⟩
      rcases (mem_insertStable le x ys z).mp hz with hzx | hzy
      · rw [hzx]; exact hc.1
      · exact h.1 z hzy
    · have hxy : le x y = true := by
        cases h1 : le x y with
        | true => rfl
        | false =>
          have h2 : le y x = true := by
            have h3 := htot x y
            rw [h1] at h3
            simpa using h3
          exact absurd (by simp [h1, h2]) hc
      simp only [insertStable]
      rw [if_neg (by simp [hxy])]
      rw [List.pairwise_cons]
      refine ⟨fun z hz => ?_, List.pairwise_cons.mpr h⟩
      rcases List.mem_cons.mp hz with hzy | hzys
      · rw [hzy]; exact hxy
      · exact htr x y z hxy (h.1 z hzys)

theorem sortStable_pairwise (le : α → α → Bool)
    (htot : ∀ a b, (le a b || le b a) = true)
    (htr : ∀ a b c, le a b = true → le b c = true → le a c = true)
    (l : List α) :
    (sortStable le l).Pairwise (fun a b => le a b = true) := by
  induction l with
  | nil => simp [sortStable]
  | cons x xs ih => exact insertStable_pairwise le htot x _ ih htr

/-- Under pairwise-distinct keys, the stable descending sort is exactly
the reverse of the stable ascending sort. -/
theorem sortStable_desc_eq_reverse (key : α → Int) (l : List α)
    (hk : l.Pairwise (fun a b => key a ≠ key b)) :
    sortStable (fun a b => decide (key b ≤ key a)) l
      = (sortStable (fun a b => decide (key a ≤ key b)) l).reverse := by
  set leAsc : α → α → Bool := fun a b => decide (key a ≤ key b) with ha
  set leDesc : α → α → Bool := fun a b => decide (key b ≤ key a) with hd
  have htotA : ∀ a b, (leAsc a b || leAsc b a) = true := by
    intro a b
    simp [ha]
    omega
  have htrA : ∀ a b c, leAsc a b = true → leAsc b c = true → leAsc a c = true := by
    intro a b c h1 h2
    simp [ha] at h1 h2 ⊢
    omega
  have htotD : ∀ a b, (leDesc a b || leDesc b a) = true := by
    intro a b
    simp [hd]
    omega
  have htrD : ∀ a b c, leDesc a b = true → leDesc b c = true → leDesc a c = true := by
    intro a b c h1 h2
    simp [hd] at h1 h2 ⊢
    omega
  have hna : (sortStable leAsc l).Pairwise (fun a b => key a ≠ key b) :=
    ((sortStable_perm leAsc l).pairwise_iff (fun h => h.symm)).mpr hk
  have hnd : (sortStable leDesc l).Pairwise (fun a b => key a ≠ key b) :=
    ((sortStable_perm leDesc l).pairwise_iff (fun h => h.symm)).mpr hk
  have hsa : (sortStable leAsc l).Pairwise (fun a b => key a < key b) := by
    have := (sortStable_pairwise leAsc htotA htrA l).and hna
    apply this.imp
    intro a b hab
    have h1 := hab.1
    simp [ha] at h1
    omega
  have hsd : ((sortStable leDesc l).reverse).Pairwise (fun a b => key a < key b) := by
    rw [List.pairwise_reverse]
    have := (sortStable_pairwise leDesc htotD htrD l).and hnd
    apply this.imp
    intro a b hab
    have h1 := hab.1
    simp [hd] at h1
    omega
  haveI : IsAntisymm α (fun a b => key a < key b) :=
    ⟨fun a b h1 h2 => absurd (lt_trans h1 h2) (lt_irrefl _)⟩
  have hperm : ((sortStable leDesc l).reverse).Perm (sortStable leAsc l) :=
    ((List.reverse_perm _).trans (sortStable_perm leDesc l)).trans
      (sortStable_perm leAsc l).symm
  have heq : (sortStable leDesc l).reverse = sortStable leAsc l :=
    List.eq_of_perm_of_sorted hperm hsd hsa
  rw [← heq, List.reverse_reverse]

theorem head?_take_one (l : List α) : (l.take 1).head? = l.head? := by
  cases l <;> rfl

theorem clientRows_applyBalances (s : ServerStore) (m : Nat → Option Money)
    (clientId : Nat) (userId : String) :
    DatabaseStorage.clientRows
        { s with rows := DatabaseStorage.applyBalances m s.rows } clientId userId
      = (DatabaseStorage.clientRows s clientId userId).map
          (DatabaseStorage.applyBalance m) := by
  show (DatabaseStorage.applyBalances m s.rows).filter _ = _
  rw [DatabaseStorage.applyBalances, List.filter_map]
  rw [DatabaseStorage.clientRows]
  congr 1
  apply List.filter_congr
  intro r _
  simp [Function.comp, applyBalance_clientId, applyBalance_userId]

theorem sortStable_byDateDesc_reverse (l : List ServerTx)
    (h : l.Pairwise (fun a b => a.date ≠ b.date)) :
    sortStable DatabaseStorage.byDateDesc l
      = (sortStable DatabaseStorage.byDateAsc l).reverse := by
  have h2 := sortStable_desc_eq_reverse (fun r : ServerTx => r.date) l h
  exact h2

/-- The chronologically-last output element of the ascending display
carries the whole set's net amount: sum of debits minus sum of
credits. -/
theorem client_last_balance_total (ts : List Transaction) (sf : SortField)
    (w : TransactionWithBalance)
    (h : (calculateTransactionBalances ts sf .asc).getLast? = some w) :
    w.balanceAfter
      = sumBy (fun t => t.debitAmount) ts - sumBy (fun t => t.creditAmount) ts := by
  rw [calculateTransactionBalances, List.getLast?_map] at h
  obtain ⟨s, hs, rfl⟩ := Option.map_eq_some'.mp h
  have hne : sortStable (sortComparator sf .asc) ts ≠ [] := by
    intro hnil
    rw [hnil] at hs
    simp at hs
  have hlast : (sortStable (sortComparator sf .asc) ts).getLast hne = s := by
    have h2 := List.getLast?_eq_getLast (sortStable (sortComparator sf .asc) ts) hne
    rw [h2] at hs
    exact Option.some.inj hs
  show (clientBalanceMap ts sf s.id).getD 0 = _
  rw [clientBalanceMap, ← hlast,
    balancePass_lookup_getLast (fun t => t.id) _ _ _ hne 0 (fun _ => none)]
  rw [Option.getD_some, balancePass_fst, zero_add, sum_map_sub]
  rw [sumBy_eq_sum, sumBy_eq_sum]
  congr 1
  · exact ((sortStable_perm _ ts).map _).sum_eq
  · exact ((sortStable_perm _ ts).map _).sum_eq

/-- The client getClientBalance always returns total debits minus total
credits over the raw subcollection. -/
theorem client_getClientBalance_total (fs : FirebaseStore) (userId : String)
    (clientId : Nat) :
    getClientBalance fs userId clientId
      = sumBy (fun t => t.debitAmount) (fs.txs userId clientId)
        - sumBy (fun t => t.creditAmount) (fs.txs userId clientId) := by
  simp only [getClientBalance, getAllTransactions]
  by_cases h : (sortStable (sortComparator .createdAt .asc)
      (fs.txs userId clientId)).length = 0
  · rw [if_pos h]
    have hnil : fs.txs userId clientId = [] := by
      rw [length_sortStable] at h
      exact List.length_eq_zero.mp h
    simp [hnil, sumBy]
  · rw [if_neg h]
    rw [sumBy_perm _ (sortStable_perm _ _), sumBy_perm _ (sortStable_perm _ _)]

/-- After a full recalculation the server getClientBalance returns
total credits minus total debits over the client's rows (the negation
of the client convention), provided the client's dates are pairwise
distinct so that the database's equal-date ordering is determined. -/
theorem server_getClientBalance_recalc (s : ServerStore) (clientId : Nat)
    (userId : String)
    (hdates : (DatabaseStorage.clientRows s clientId userId).Pairwise
      (fun a b => a.date ≠ b.date)) :
    DatabaseStorage.getClientBalance
        (DatabaseStorage.recalculateBalances s clientId userId) clientId userId
      = sumBy (fun r => r.creditAmount) (DatabaseStorage.clientRows s clientId userId)
        - sumBy (fun r => r.debitAmount)
            (DatabaseStorage.clientRows s clientId userId) := by
  have hrows : DatabaseStorage.clientRows
      (DatabaseStorage.recalculateBalances s clientId userId) clientId userId
      = (DatabaseStorage.clientRows s clientId userId).map
          (DatabaseStorage.applyBalance
            (DatabaseStorage.recalcMap (DatabaseStorage.clientRows s clientId userId))) := by
    rw [DatabaseStorage.recalculateBalances]
    exact clientRows_applyBalances s _ clientId userId
  rw [DatabaseStorage.getClientBalance, hrows]
  rw [sortStable_map DatabaseStorage.byDateDesc DatabaseStorage.byDateDesc
    (DatabaseStorage.applyBalance _)
    (fun a b => by simp [DatabaseStorage.byDateDesc, applyBalance_date]) _]
  rw [head?_take_one, List.head?_map]
  rw [sortStable_byDateDesc_reverse _ hdates, List.head?_reverse]
  rcases heq : (sortStable DatabaseStorage.byDateAsc
      (DatabaseStorage.clientRows s clientId userId)).getLast? with _ | last
  · have hnil : DatabaseStorage.clientRows s clientId userId = [] := by
      have h2 := congrArg List.length
        (List.getLast?_eq_none_iff.mp heq)
      rw [length_sortStable] at h2
      exact List.length_eq_zero.mp h2
    simp [hnil, sumBy]
  · have hne : sortStable DatabaseStorage.byDateAsc
        (DatabaseStorage.clientRows s clientId userId) ≠ [] := by
      intro hnil
      rw [hnil] at heq
      simp at heq
    have hlast : (sortStable DatabaseStorage.byDateAsc
        (DatabaseStorage.clientRows s clientId userId)).getLast hne = last := by
      have h2 := List.getLast?_eq_getLast (sortStable DatabaseStorage.byDateAsc
        (DatabaseStorage.clientRows s clientId userId)) hne
      rw [h2] at heq
      exact Option.some.inj heq
    have hm : DatabaseStorage.recalcMap
        (DatabaseStorage.clientRows s clientId userId) last.id
        = some ((balancePass (fun r : ServerTx => r.id)
            (fun r => r.creditAmount) (fun r => r.debitAmount)
            (0, fun _ => none)
            (sortStable DatabaseStorage.byDateAsc
              (DatabaseStorage.clientRows s clientId userId))).1) := by
      rw [DatabaseStorage.recalcMap, ← hlast]
      exact balancePass_lookup_getLast (fun r => r.id) _ _ _ hne 0 (fun _ => none)
    show (DatabaseStorage.applyBalance _ last).balanceAfter = _
    rw [applyBalance_of_some _ _ _ hm]
    show (balancePass _ _ _ _ _).1 = _
    rw [balancePass_fst, zero_add, sum_map_sub, sumBy_eq_sum, sumBy_eq_sum]
    congr 1
    · exact ((sortStable_perm _ _).map _).sum_eq
    · exact ((sortStable_perm _ _).map _).sum_eq

/-- C4 (corrected): the client side behaves as claimed — the
chronologically-last transaction's balanceAfter equals sum(debit) -
sum(credit) over the set, and the client getClientBalance returns
exactly that value.  The server getClientBalance, however, returns the
stored balanceAfter of the latest-by-date row, which after a
recalculation equals sum(credit) - sum(debit): the negation of the
claimed current balance (the server's sign convention is credit
positive). -/
theorem c4_final_balance_and_client_balance :
    (∀ ts sf w, (calculateTransactionBalances ts sf .asc).getLast? = some w →
        w.balanceAfter = sumBy (fun t => t.debitAmount) ts
          - sumBy (fun t => t.creditAmount) ts)
    ∧ (∀ fs userId clientId, getClientBalance fs userId clientId
        = sumBy (fun t => t.debitAmount) (fs.txs userId clientId)
          - sumBy (fun t => t.creditAmount) (fs.txs userId clientId))
    ∧ (∀ s clientId userId,
        (DatabaseStorage.clientRows s clientId userId).Pairwise
            (fun a b => a.date ≠ b.date) →
        DatabaseStorage.getClientBalance
            (DatabaseStorage.recalculateBalances s clientId userId) clientId userId
          = sumBy (fun r => r.creditAmount)
              (DatabaseStorage.clientRows s clientId userId)
            - sumBy (fun r => r.debitAmount)
                (DatabaseStorage.clientRows s clientId userId)) :=
  ⟨client_last_balance_total, client_getClientBalance_total,
    server_getClientBalance_recalc⟩

/-- Witness for C4: the three-transaction scenario's last balance 600
equals its net total on the client side, and the recalculated server
store of one 100-debit transaction returns its credit-minus-debit
total. -/
theorem c4_witness :
    ((⟨txC, 600⟩ : TransactionWithBalance).balanceAfter
        = sumBy (fun t => t.debitAmount) [txA, txB, txC]
          - sumBy (fun t => t.creditAmount) [txA, txB, txC])
    ∧ DatabaseStorage.getClientBalance
        (DatabaseStorage.recalculateBalances
          { rows := [rowOfTx 1 "u" 0 txDebit100], nextId := 2 } 1 "u") 1 "u"
      = sumBy (fun r => r.creditAmount)
          (DatabaseStorage.clientRows
            { rows := [rowOfTx 1 "u" 0 txDebit100], nextId := 2 } 1 "u")
        - sumBy (fun r => r.debitAmount)
            (DatabaseStorage.clientRows
              { rows := [rowOfTx 1 "u" 0 txDebit100], nextId := 2 } 1 "u") :=
  ⟨c4_final_balance_and_client_balance.1 [txA, txB, txC] .date ⟨txC, 600⟩
      (by simp [calculateTransactionBalances, clientBalanceMap, sortStable,
        insertStable, sortComparator, sortKey, balancePass, txA, txB, txC] <;>
        norm_num),
    c4_final_balance_and_client_balance.2.2
      { rows := [rowOfTx 1 "u" 0 txDebit100], nextId := 2 } 1 "u"
      (by simp [DatabaseStorage.clientRows, rowOfTx, txDebit100])⟩

/-- C4 counterexample: for the set holding one 100-debit transaction
the claimed current balance is 100, but the server getClientBalance
returns -100 after the recalculation pass. -/
theorem c4_counterexample :
    DatabaseStorage.getClientBalance
        (DatabaseStorage.recalculateBalances
          { rows := [rowOfTx 1 "u" 0 txDebit100], nextId := 2 } 1 "u") 1 "u" = -100
    ∧ sumBy (fun t => t.debitAmount) [txDebit100]
        - sumBy (fun t => t.creditAmount) [txDebit100] = 100
    ∧ (-100 : Money) ≠ 100 := by
  refine ⟨?_, by simp [sumBy, txDebit100], by norm_num⟩
  simp [DatabaseStorage.getClientBalance, DatabaseStorage.recalculateBalances,
    DatabaseStorage.clientRows, DatabaseStorage.recalcMap,
    DatabaseStorage.applyBalances, DatabaseStorage.applyBalance,
    DatabaseStorage.byDateAsc, DatabaseStorage.byDateDesc,
    sortStable, insertStable, balancePass, rowOfTx, txDebit100]

/-- C7 (corrected): the recalculation pass is not an atomic unit: it
issues one UPDATE per row along the date-ascending order.  The full
pass is exactly the write loop run to completion; after only k writes,
every row whose id the first k writes did not record still holds its
old balanceAfter, while every recorded id already holds its fresh
value — so a failure partway through leaves the early chronological
rows freshly rewritten and the remaining rows stale. -/
theorem c7_write_loop_not_atomic :
    (∀ s clientId userId,
        DatabaseStorage.recalculateBalances s clientId userId
          = DatabaseStorage.recalculateBalancesUpTo s clientId userId
              (sortStable DatabaseStorage.byDateAsc
                (DatabaseStorage.clientRows s clientId userId)).length)
    ∧ (∀ s clientId userId k i,
        DatabaseStorage.recalcMapUpTo s clientId userId k i = none →
        (DatabaseStorage.recalculateBalancesUpTo s clientId userId k).rows.filter
            (fun r => decide (r.id = i))
          = s.rows.filter (fun r => decide (r.id = i)))
    ∧ (∀ s clientId userId k i v,
        DatabaseStorage.recalcMapUpTo s clientId userId k i = some v →
        (DatabaseStorage.recalculateBalancesUpTo s clientId userId k).rows.filter
            (fun r => decide (r.id = i))
          = (s.rows.filter (fun r => decide (r.id = i))).map
              (fun r => { r with balanceAfter := v })) := by
  refine ⟨fun s c u => ?_, fun s c u k i hnone => ?_, fun s c u k i v hsome => ?_⟩
  · rw [DatabaseStorage.recalculateBalances, DatabaseStorage.recalculateBalancesUpTo]
    rw [DatabaseStorage.recalcMapUpTo, List.take_length]
    rfl
  · rw [DatabaseStorage.recalculateBalancesUpTo]
    show (DatabaseStorage.applyBalances _ s.rows).filter _ = _
    rw [DatabaseStorage.applyBalances, List.filter_map]
    have hp : (fun r => decide (r.id = i)) ∘
        DatabaseStorage.applyBalance (DatabaseStorage.recalcMapUpTo s c u k)
        = fun r => decide (r.id = i) := by
      funext r
      simp [Function.comp, applyBalance_id]
    rw [hp]
    refine (List.map_congr_left ?_).trans (List.map_id _)
    intro r hr
    have hid : r.id = i := by
      have := (List.mem_filter.mp hr).2
      simpa using this
    show DatabaseStorage.applyBalance _ r = r
    apply applyBalance_of_none
    rw [hid]
    exact hnone
  · rw [DatabaseStorage.recalculateBalancesUpTo]
    show (DatabaseStorage.applyBalances _ s.rows).filter _ = _
    rw [DatabaseStorage.applyBalances, List.filter_map]
    have hp : (fun r => decide (r.id = i)) ∘
        DatabaseStorage.applyBalance (DatabaseStorage.recalcMapUpTo s c u k)
        = fun r => decide (r.id = i) := by
      funext r
      simp [Function.comp, applyBalance_id]
    rw [hp]
    apply List.map_congr_left
    intro r hr
    have hid : r.id = i := by
      have := (List.mem_filter.mp hr).2
      simpa using this
    apply applyBalance_of_some
    rw [hid]
    exact hsome

/-- Witness for C7 on the two-row store: after one of the two writes,
the untouched id 2 keeps its row and the written id 1 holds the fresh
value -100. -/
theorem c7_witness :
    ((DatabaseStorage.recalculateBalancesUpTo c7store 1 "u" 1).rows.filter
        (fun r => decide (r.id = 2))
      = c7store.rows.filter (fun r => decide (r.id = 2)))
    ∧ ((DatabaseStorage.recalculateBalancesUpTo c7store 1 "u" 1).rows.filter
        (fun r => decide (r.id = 1))
      = (c7store.rows.filter (fun r => decide (r.id = 1))).map
          (fun r => { r with balanceAfter := -100 })) :=
  ⟨c7_write_loop_not_atomic.2.1 c7store 1 "u" 1 2
      (by simp [DatabaseStorage.recalcMapUpTo, DatabaseStorage.clientRows,
        DatabaseStorage.byDateAsc, sortStable, insertStable, balancePass,
        c7store, c7row1, c7row2]),
    c7_write_loop_not_atomic.2.2 c7store 1 "u" 1 1 (-100)
      (by simp [DatabaseStorage.recalcMapUpTo, DatabaseStorage.clientRows,
        DatabaseStorage.byDateAsc, sortStable, insertStable, balancePass,
        c7store, c7row1, c7row2])⟩

/-- C7 counterexample: interrupting the recalculation of the two-row
store after its first write leaves row 1 already changed (from stored
100 to fresh -100) while row 2 still holds its stale 37 — the pass is
not all-or-nothing, contradicting the claim that a partial failure
changes no stored balanceAfter. -/
theorem c7_counterexample :
    ((DatabaseStorage.recalculateBalancesUpTo c7store 1 "u" 1).rows.map
        (fun r => r.balanceAfter) = [-100, 37])
    ∧ c7store.rows.map (fun r => r.balanceAfter) = [100, 37]
    ∧ (-100 : Money) ≠ 100 := by
  refine ⟨?_, by simp [c7store, c7row1, c7row2], by norm_num⟩
  simp [DatabaseStorage.recalculateBalancesUpTo, DatabaseStorage.recalcMapUpTo,
    DatabaseStorage.clientRows, DatabaseStorage.applyBalances,
    DatabaseStorage.applyBalance, DatabaseStorage.byDateAsc,
    sortStable, insertStable, balancePass, c7store, c7row1, c7row2]

/-- Rewriting balances does not change what a recalculation computes:
the balance map only reads id, date and the amounts, all preserved by
applyBalance. -/
theorem recalcMap_map_applyBalance (m : Nat → Option Money) (cr : List ServerTx) :
    DatabaseStorage.recalcMap (cr.map (DatabaseStorage.applyBalance m))
      = DatabaseStorage.recalcMap cr := by
  rw [DatabaseStorage.recalcMap, DatabaseStorage.recalcMap]
  rw [sortStable_map DatabaseStorage.byDateAsc DatabaseStorage.byDateAsc
    (DatabaseStorage.applyBalance m)
    (fun a b => by simp [DatabaseStorage.byDateAsc, applyBalance_date]) cr]
  rw [balancePass_map]
  have h1 : (fun a : ServerTx => (DatabaseStorage.applyBalance m a).id)
      = fun a : ServerTx => a.id := funext (applyBalance_id m)
  have h2 : (fun a : ServerTx => (DatabaseStorage.applyBalance m a).creditAmount)
      = fun a : ServerTx => a.creditAmount := funext (applyBalance_creditAmount m)
  have h3 : (fun a : ServerTx => (DatabaseStorage.applyBalance m a).debitAmount)
      = fun a : ServerTx => a.debitAmount := funext (applyBalance_debitAmount m)
  rw [h1, h2, h3]

/-- After recalculateBalances, every row of the recalculated client
stores exactly the balance a fresh full chronological recomputation
over the current row set assigns to its id. -/
theorem recalc_postcondition (s : ServerStore) (clientId : Nat) (userId : String) :
    ∀ r ∈ (DatabaseStorage.recalculateBalances s clientId userId).rows,
      r.clientId = clientId → r.userId = userId →
      DatabaseStorage.recalcMap
          (DatabaseStorage.clientRows
            (DatabaseStorage.recalculateBalances s clientId userId) clientId userId)
          r.id
        = some r.balanceAfter := by
  intro r hr hc hu
  rw [DatabaseStorage.recalculateBalances] at hr ⊢
  rw [clientRows_applyBalances, recalcMap_map_applyBalance]
  rw [DatabaseStorage.applyBalances] at hr
  obtain ⟨r₀, hr₀, rfl⟩ := List.mem_map.mp hr
  rw [applyBalance_clientId] at hc
  rw [applyBalance_userId] at hu
  have hmem : r₀ ∈ DatabaseStorage.clientRows s clientId userId :=
    List.mem_filter.mpr ⟨hr₀, by simp [hc, hu]⟩
  have hkey : r₀.id ∈ (sortStable DatabaseStorage.byDateAsc
      (DatabaseStorage.clientRows s clientId userId)).map (fun r => r.id) :=
    List.mem_map.mpr ⟨r₀, (mem_sortStable _ _ _).mpr hmem, rfl⟩
  obtain ⟨v, hv⟩ := balancePass_lookup_mem (fun r : ServerTx => r.id)
    (fun r => r.creditAmount) (fun r => r.debitAmount) _ 0 (fun _ => none) r₀.id hkey
  have hv2 : DatabaseStorage.recalcMap
      (DatabaseStorage.clientRows s clientId userId) r₀.id = some v := hv
  rw [applyBalance_of_some _ _ _ hv2]
  exact hv2

/-- C3 (corrected): updateTransaction and deleteTransaction do rerun
the full chronological recomputation for the affected client, so every
stored balanceAfter of that client afterwards equals the value a fresh
full recompute over the current set assigns.  createTransaction does
NOT: it only writes the new row, deriving its balance incrementally
from the latest-by-date row (see the counterexample). -/
theorem c3_update_delete_full_recompute :
    (∀ s id p userId t2 s2,
        DatabaseStorage.updateTransaction s id p userId = (some t2, s2) →
        ∀ r ∈ s2.rows, r.clientId = t2.clientId → r.userId = userId →
        DatabaseStorage.recalcMap
            (DatabaseStorage.clientRows s2 t2.clientId userId) r.id
          = some r.balanceAfter)
    ∧ (∀ s id userId t s2,
        DatabaseStorage.getTransaction s id userId = some t →
        DatabaseStorage.deleteTransaction s id userId = (true, s2) →
        ∀ r ∈ s2.rows, r.clientId = t.clientId → r.userId = userId →
        DatabaseStorage.recalcMap
            (DatabaseStorage.clientRows s2 t.clientId userId) r.id
          = some r.balanceAfter) := by
  constructor
  · intro s id p userId t2 s2 hupd r hr hc hu
    rw [DatabaseStorage.updateTransaction] at hupd
    cases heq : DatabaseStorage.getTransaction s id userId with
    | none =>
      rw [heq] at hupd
      simp at hupd
    | some existing =>
      rw [heq] at hupd
      simp only [Prod.mk.injEq, Option.some.injEq] at hupd
      obtain ⟨ht2, hs2⟩ := hupd
      subst ht2
      subst hs2
      exact recalc_postcondition _ _ _ r hr hc hu
  · intro s id userId t s2 hget hdel r hr hc hu
    rw [DatabaseStorage.deleteTransaction] at hdel
    rw [hget] at hdel
    dsimp only at hdel
    by_cases hlen : (s.rows.filter (fun r =>
        !(decide (r.id = id) && decide (r.userId = userId)))).length < s.rows.length
    · rw [if_pos hlen] at hdel
      simp only [Prod.mk.injEq] at hdel
      have hs2 := hdel.2
      subst hs2
      exact recalc_postcondition _ _ _ r hr hc hu
    · rw [if_neg hlen] at hdel
      simp at hdel

/-- Witness for C3: updating row 1 of the two-row store with an empty
patch and deleting row 2 of the same store both leave every remaining
row of client 1 holding exactly its freshly recomputed balance. -/
theorem c3_witness :
    DatabaseStorage.recalcMap
        (DatabaseStorage.clientRows
          { rows := [{ id := 1, clientId := 1, userId := "u", date := 1
                       particulars := "a", billNo := none, debitAmount := 100
                       creditAmount := 0, balanceAfter := -100 },
                     { id := 2, clientId := 1, userId := "u", date := 2
                       particulars := "b", billNo := none, debitAmount := 0
                       creditAmount := 50, balanceAfter := -50 }], nextId := 3 }
          c7row1.clientId "u") 1
      = some (-100)
    ∧ DatabaseStorage.recalcMap
        (DatabaseStorage.clientRows
          { rows := [{ id := 1, clientId := 1, userId := "u", date := 1
                       particulars := "a", billNo := none, debitAmount := 100
                       creditAmount := 0, balanceAfter := -100 }], nextId := 3 }
          c7row2.clientId "u") 1
      = some (-100) := by
  constructor
  · exact c3_update_delete_full_recompute.1 c7store 1 noPatch "u" c7row1
      { rows := [{ id := 1, clientId := 1, userId := "u", date := 1
                   particulars := "a", billNo := none, debitAmount := 100
                   creditAmount := 0, balanceAfter := -100 },
                 { id := 2, clientId := 1, userId := "u", date := 2
                   particulars := "b", billNo := none, debitAmount := 0
                   creditAmount := 50, balanceAfter := -50 }], nextId := 3 }
      (by simp [DatabaseStorage.updateTransaction, DatabaseStorage.getTransaction,
        DatabaseStorage.applyUpdate, DatabaseStorage.recalculateBalances,
        DatabaseStorage.clientRows, DatabaseStorage.recalcMap,
        DatabaseStorage.applyBalances, DatabaseStorage.applyBalance,
        DatabaseStorage.byDateAsc, sortStable, insertStable, balancePass,
        c7store, c7row1, c7row2, noPatch] <;> norm_num)
      { id := 1, clientId := 1, userId := "u", date := 1
        particulars := "a", billNo := none, debitAmount := 100
        creditAmount := 0, balanceAfter := -100 }
      (by simp) (by simp [c7row1]) (by simp)
  · exact c3_update_delete_full_recompute.2 c7store 2 "u" c7row2
      { rows := [{ id := 1, clientId := 1, userId := "u", date := 1
                   particulars := "a", billNo := none, debitAmount := 100
                   creditAmount := 0, balanceAfter := -100 }], nextId := 3 }
      (by simp [DatabaseStorage.getTransaction, c7store, c7row1, c7row2])
      (by simp [DatabaseStorage.deleteTransaction, DatabaseStorage.getTransaction,
        DatabaseStorage.recalculateBalances, DatabaseStorage.clientRows,
        DatabaseStorage.recalcMap, DatabaseStorage.applyBalances,
        DatabaseStorage.applyBalance, DatabaseStorage.byDateAsc,
        sortStable, insertStable, balancePass, c7store, c7row1, c7row2])
      { id := 1, clientId := 1, userId := "u", date := 1
        particulars := "a", billNo := none, debitAmount := 100
        creditAmount := 0, balanceAfter := -100 }
      (by simp) (by simp [c7row2]) (by simp)

/-- C3 counterexample: createTransaction does not recompute the whole
set.  Creating a 100 credit dated day 10 and then a backdated 100 debit
dated day 1 leaves the first row's stored balanceAfter at 100, whereas
a full chronological recompute over the current set assigns it 0 (and
the second row 0 where the recompute assigns -100). -/
theorem c3_counterexample :
    c3store.rows.map (fun r => r.balanceAfter) = [100, 0]
    ∧ DatabaseStorage.recalcMap (DatabaseStorage.clientRows c3store 7 "u") 1
        = some 0
    ∧ (100 : Money) ≠ 0 := by
  have hstore : c3store.rows =
      [{ id := 1, clientId := 7, userId := "u", date := 10
         particulars := "sale", billNo := none, debitAmount := 0
         creditAmount := 100, balanceAfter := 100 },
       { id := 2, clientId := 7, userId := "u", date := 1
         particulars := "backdated", billNo := none, debitAmount := 100
         creditAmount := 0, balanceAfter := 0 }] := by
    simp [c3store, DatabaseStorage.createTransaction, DatabaseStorage.clientRows,
      DatabaseStorage.byDateDesc, sortStable, insertStable, c3ins1, c3ins2]
  refine ⟨by rw [hstore]; rfl, ?_, by norm_num⟩
  rw [DatabaseStorage.clientRows, hstore]
  simp [DatabaseStorage.recalcMap, DatabaseStorage.byDateAsc, sortStable,
    insertStable, balancePass]

theorem jsDateMs_next_first (y m : Int) :
    jsDateMs y m 1 = jsDateMs y m 0 + 86400000 := by
  have h := jsDateMs_add_day y m 0
  simpa using h

/-- For a day-aligned timestamp, lying at or before the last day's
midnight is the same as lying before the next month's first midnight. -/
theorem aligned_upper_bound (y m d : Int) (hd : (86400000 : Int) ∣ d) :
    decide (d ≤ jsDateMs y m 0) = decide (d < jsDateMs y m 1) := by
  rw [decide_eq_decide, jsDateMs_next_first]
  obtain ⟨a, ha⟩ := hd
  obtain ⟨b, hb⟩ := dvd_jsDateMs y m 0
  rw [ha, hb]
  omega

/-- The server month window over day-aligned dates is exactly Gregorian
month membership. -/
theorem server_month_filter_eq (y m : Int) (userId : String) (r : ServerTx)
    (hd : (86400000 : Int) ∣ r.date) :
    (decide (r.userId = userId) && decide (jsDateMs y (m - 1) 1 ≤ r.date)
        && decide (r.date ≤ jsDateMs y m 0))
      = (decide (r.userId = userId) && inGregorianMonth y m r.date) := by
  rw [inGregorianMonth, aligned_upper_bound y m r.date hd, Bool.and_assoc]

/-- DatabaseStorage.getMonthlyTotals sums credits and debits over
exactly the user's rows dated inside the Gregorian month (for
day-aligned dates, which is what date-only inputs give), and returns
netBalance = totalCredits - totalDebits. -/
theorem server_monthly_totals (s : ServerStore) (userId : String) (y m : Int)
    (hal : ∀ r ∈ s.rows, (86400000 : Int) ∣ r.date) :
    DatabaseStorage.getMonthlyTotals s userId y m
      = { totalCredits := sumBy (fun r => r.creditAmount)
            (s.rows.filter (fun r =>
              decide (r.userId = userId) && inGregorianMonth y m r.date))
          totalDebits := sumBy (fun r => r.debitAmount)
            (s.rows.filter (fun r =>
              decide (r.userId = userId) && inGregorianMonth y m r.date))
          netBalance := sumBy (fun r => r.creditAmount)
              (s.rows.filter (fun r =>
                decide (r.userId = userId) && inGregorianMonth y m r.date))
            - sumBy (fun r => r.debitAmount)
                (s.rows.filter (fun r =>
                  decide (r.userId = userId) && inGregorianMonth y m r.date)) } := by
  have hfil : s.rows.filter (fun r =>
        decide (r.userId = userId) && decide (jsDateMs y (m - 1) 1 ≤ r.date)
          && decide (r.date ≤ jsDateMs y m 0))
      = s.rows.filter (fun r =>
          decide (r.userId = userId) && inGregorianMonth y m r.date) :=
    List.filter_congr (fun r hr => server_month_filter_eq y m userId r (hal r hr))
  simp only [DatabaseStorage.getMonthlyTotals]
  rw [hfil]

/-- The month filters getMonthlyTotals passes reduce, over day-aligned
transactions, to plain Gregorian month membership. -/
theorem monthlyFilters_apply (y m : Int) (l : List Transaction)
    (hal : ∀ t ∈ l, (86400000 : Int) ∣ t.date) :
    applyTransactionFilters (monthlyFilters y m) l
      = l.filter (fun t => inGregorianMonth y m t.date) := by
  show (l.filter _).filter _ = _
  rw [List.filter_filter]
  apply List.filter_congr
  intro t ht
  have hd := hal t ht
  rw [inGregorianMonth]
  have hstart : dayStartMs (jsDateMs y (m - 1) 1) = jsDateMs y (m - 1) 1 :=
    dayStartMs_of_aligned _ (dvd_jsDateMs y (m - 1) 1)
  have hend : dayStartMs (jsDateMs y m 0 + 86399999) = jsDateMs y m 0 :=
    dayStartMs_add_of_aligned _ _ (dvd_jsDateMs y m 0) (by norm_num) (by norm_num)
  show (decide (t.date ≤ dayStartMs (jsDateMs y m 0 + 86399999) + 86399999)
      && decide (dayStartMs (jsDateMs y (m - 1) 1) ≤ t.date)) = _
  rw [hstart, hend]
  have hup : decide (t.date ≤ jsDateMs y m 0 + 86399999)
      = decide (t.date < jsDateMs y m 1) := by
    rw [decide_eq_decide, jsDateMs_next_first]
    obtain ⟨a, ha⟩ := hd
    obtain ⟨b, hb⟩ := dvd_jsDateMs y m 0
    rw [ha, hb]
    omega
  rw [hup, Bool.and_comm]

/-- getMonthlyTotals fetches each client's month through getTransactions
with pageSize 1000; over day-aligned dates the returned list is the
truncated month contribution. -/
theorem getTransactions_monthly (fs : FirebaseStore) (userId : String)
    (clientId : Nat) (y m : Int)
    (hal : ∀ t ∈ fs.txs userId clientId, (86400000 : Int) ∣ t.date) :
    (getTransactions fs userId clientId (monthlyFilters y m)).transactions
      = monthContrib fs userId y m clientId := by
  rw [monthContrib]
  show applyTransactionFilters (monthlyFilters y m) _ = _
  apply monthlyFilters_apply
  intro t ht
  exact hal t ((mem_sortStable _ _ _).mp (List.mem_of_mem_take ht))

/-- The client getMonthlyTotals equals the fold of truncated month
contributions over the user's clients, with netAmount = totalCredit -
totalDebit. -/
theorem client_monthly_totals (fs : FirebaseStore) (userId : String) (y m : Int)
    (hal : ∀ clientId t, t ∈ fs.txs userId clientId → (86400000 : Int) ∣ t.date) :
    getMonthlyTotals fs userId y m
      = ((fun acc : Money × Money × Nat =>
          { totalDebit := acc.1, totalCredit := acc.2.1
            netAmount := acc.2.1 - acc.1
            transactionCount := acc.2.2 : MonthlyTotals })
        ((getClients fs userId).foldl (fun acc c =>
          (acc.1 + sumBy (fun t => t.debitAmount)
              (monthContrib fs userId y m c.id),
           acc.2.1 + sumBy (fun t => t.creditAmount)
              (monthContrib fs userId y m c.id),
           acc.2.2 + (monthContrib fs userId y m c.id).length))
          ((0 : Money), (0 : Money), (0 : Nat)))) := by
  have hfun : (fun (acc : Money × Money × Nat) (c : FsClient) =>
        (acc.1 + sumBy (fun t => t.debitAmount)
            (getTransactions fs userId c.id (monthlyFilters y m)).transactions,
         acc.2.1 + sumBy (fun t => t.creditAmount)
            (getTransactions fs userId c.id (monthlyFilters y m)).transactions,
         acc.2.2 + (getTransactions fs userId c.id
            (monthlyFilters y m)).transactions.length))
      = fun (acc : Money × Money × Nat) (c : FsClient) =>
        (acc.1 + sumBy (fun t => t.debitAmount)
            (monthContrib fs userId y m c.id),
         acc.2.1 + sumBy (fun t => t.creditAmount)
            (monthContrib fs userId y m c.id),
         acc.2.2 + (monthContrib fs userId y m c.id).length) := by
    funext acc c
    rw [getTransactions_monthly fs userId c.id y m (hal c.id)]
  show ((fun acc : Money × Money × Nat =>
      { totalDebit := acc.1, totalCredit := acc.2.1
        netAmount := acc.2.1 - acc.1
        transactionCount := acc.2.2 : MonthlyTotals })
    ((getClients fs userId).foldl (fun acc c =>
      (acc.1 + sumBy (fun t => t.debitAmount)
          (getTransactions fs userId c.id (monthlyFilters y m)).transactions,
       acc.2.1 + sumBy (fun t => t.creditAmount)
          (getTransactions fs userId c.id (monthlyFilters y m)).transactions,
       acc.2.2 + (getTransactions fs userId c.id
          (monthlyFilters y m)).transactions.length))
      ((0 : Money), (0 : Money), (0 : Nat)))) = _
  rw [hfun]

/-- C5 (corrected): the server getMonthlyTotals does sum debit and
credit over all of the user's transactions dated in the Gregorian
calendar month (both boundary days included, for day-aligned dates) and
returns net = totalCredit - totalDebit, and the worked example yields
totalDebit 1200, totalCredit 400, net -800 on both implementations.
The client getMonthlyTotals, however, aggregates only each client's
first 1000 documents in createdAt-ascending order (fetched before the
date filters are applied), so it can miss month transactions beyond
that page. -/
theorem c5_monthly_totals :
    (∀ s userId y m, (∀ r ∈ s.rows, (86400000 : Int) ∣ r.date) →
        DatabaseStorage.getMonthlyTotals s userId y m
          = { totalCredits := sumBy (fun r => r.creditAmount)
                (s.rows.filter (fun r =>
                  decide (r.userId = userId) && inGregorianMonth y m r.date))
              totalDebits := sumBy (fun r => r.debitAmount)
                (s.rows.filter (fun r =>
                  decide (r.userId = userId) && inGregorianMonth y m r.date))
              netBalance := sumBy (fun r => r.creditAmount)
                  (s.rows.filter (fun r =>
                    decide (r.userId = userId) && inGregorianMonth y m r.date))
                - sumBy (fun r => r.debitAmount)
                    (s.rows.filter (fun r =>
                      decide (r.userId = userId)
                        && inGregorianMonth y m r.date)) })
    ∧ (∀ fs userId y m,
        (∀ clientId t, t ∈ fs.txs userId clientId → (86400000 : Int) ∣ t.date) →
        getMonthlyTotals fs userId y m
          = ((fun acc : Money × Money × Nat =>
              { totalDebit := acc.1, totalCredit := acc.2.1
                netAmount := acc.2.1 - acc.1
                transactionCount := acc.2.2 : MonthlyTotals })
            ((getClients fs userId).foldl (fun acc c =>
              (acc.1 + sumBy (fun t => t.debitAmount)
                  (monthContrib fs userId y m c.id),
               acc.2.1 + sumBy (fun t => t.creditAmount)
                  (monthContrib fs userId y m c.id),
               acc.2.2 + (monthContrib fs userId y m c.id).length))
              ((0 : Money), (0 : Money), (0 : Nat)))))
    ∧ DatabaseStorage.getMonthlyTotals c5store "u" 2024 2
        = { totalCredits := 400, totalDebits := 1200, netBalance := -800 }
    ∧ getMonthlyTotals c5fs "u" 2024 2
        = { totalDebit := 1200, totalCredit := 400, netAmount := -800
            transactionCount := 3 } := by
  refine ⟨server_monthly_totals, client_monthly_totals, ?_, ?_⟩
  · have h1 : jsDateMs 2024 1 1 = 1706745600000 := by decide
    have h5 : jsDateMs 2024 1 5 = 1707091200000 := by decide
    have h10 : jsDateMs 2024 1 10 = 1707523200000 := by decide
    have h29 : jsDateMs 2024 1 29 = 1709164800000 := by decide
    have h0 : jsDateMs 2024 2 0 = 1709164800000 := by decide
    simp [DatabaseStorage.getMonthlyTotals, sumBy, c5store, h1, h5, h10, h29, h0]
    norm_num
  · have h1 : dayStartMs (jsDateMs 2024 1 1) = 1706745600000 := by decide
    have h2 : dayStartMs (jsDateMs 2024 2 0 + 86399999) = 1709164800000 := by
      decide
    have h5 : jsDateMs 2024 1 5 = 1707091200000 := by decide
    have h10 : jsDateMs 2024 1 10 = 1707523200000 := by decide
    have h29 : jsDateMs 2024 1 29 = 1709164800000 := by decide
    simp [getMonthlyTotals, getClients, getTransactions, applyTransactionFilters,
      effectivePageSize, monthlyFilters, sortStable, insertStable, sortComparator,
      sortKey, sumBy, c5fs, c5txs1, c5txs2, h1, h2, h5, h10, h29]
    norm_num

/-- Witness for C5 on the worked example stores: both month-window
characterizations applied at the 2024-02 scenario data. -/
theorem c5_witness :
    DatabaseStorage.getMonthlyTotals c5store "u" 2024 2
      = { totalCredits := sumBy (fun r => r.creditAmount)
            (c5store.rows.filter (fun r =>
              decide (r.userId = "u") && inGregorianMonth 2024 2 r.date))
          totalDebits := sumBy (fun r => r.debitAmount)
            (c5store.rows.filter (fun r =>
              decide (r.userId = "u") && inGregorianMonth 2024 2 r.date))
          netBalance := sumBy (fun r => r.creditAmount)
              (c5store.rows.filter (fun r =>
                decide (r.userId = "u") && inGregorianMonth 2024 2 r.date))
            - sumBy (fun r => r.debitAmount)
                (c5store.rows.filter (fun r =>
                  decide (r.userId = "u") && inGregorianMonth 2024 2 r.date)) }
    ∧ getMonthlyTotals c5fs "u" 2024 2
      = ((fun acc : Money × Money × Nat =>
          { totalDebit := acc.1, totalCredit := acc.2.1
            netAmount := acc.2.1 - acc.1
            transactionCount := acc.2.2 : MonthlyTotals })
        ((getClients c5fs "u").foldl (fun acc c =>
          (acc.1 + sumBy (fun t => t.debitAmount)
              (monthContrib c5fs "u" 2024 2 c.id),
           acc.2.1 + sumBy (fun t => t.creditAmount)
              (monthContrib c5fs "u" 2024 2 c.id),
           acc.2.2 + (monthContrib c5fs "u" 2024 2 c.id).length))
          ((0 : Money), (0 : Money), (0 : Nat)))) := by
  constructor
  · apply c5_monthly_totals.1 c5store "u" 2024 2
    intro r hr
    simp [c5store] at hr
    rcases hr with rfl | rfl | rfl
    · exact dvd_jsDateMs 2024 1 5
    · exact dvd_jsDateMs 2024 1 10
    · exact dvd_jsDateMs 2024 1 29
  · apply c5_monthly_totals.2.1 c5fs "u" 2024 2
    intro clientId t ht
    have hmem : t ∈ (if clientId = 1 then c5txs1
        else if clientId = 2 then c5txs2 else []) := by
      simpa [c5fs] using ht
    by_cases hc1 : clientId = 1
    · rw [if_pos hc1, c5txs1] at hmem
      rcases List.mem_cons.mp hmem with rfl | hmem2
      · exact dvd_jsDateMs 2024 1 5
      · rcases List.mem_singleton.mp hmem2 with rfl
        exact dvd_jsDateMs 2024 1 10
    · rw [if_neg hc1] at hmem
      by_cases hc2 : clientId = 2
      · rw [if_pos hc2, c5txs2] at hmem
        rcases List.mem_singleton.mp hmem with rfl
        exact dvd_jsDateMs 2024 1 29
      · rw [if_neg hc2] at hmem
        simp at hmem

/-- C5 counterexample: a client with 1001 transactions all dated inside
February 2024 (1000 of debit 5 and one of debit 7).  The claim says the
month totals sum over all of them (totalDebit 5007), but the client
getMonthlyTotals only aggregates the first 1000 fetched documents and
reports totalDebit 5000 — the 1001st in-month transaction is omitted. -/
theorem c5_counterexample :
    (getMonthlyTotals c5bigFs "u" 2024 2).totalDebit = 5000
    ∧ sumBy (fun t => t.debitAmount)
        (c5bigList.filter (fun t => inGregorianMonth 2024 2 t.date)) = 5007
    ∧ (5000 : Money) ≠ 5007 := by
  have hal : ∀ clientId t, t ∈ c5bigFs.txs "u" clientId →
      (86400000 : Int) ∣ t.date := by
    intro c t ht
    have hmem : t ∈ c5bigList := ht
    rw [c5bigList] at hmem
    rcases List.mem_append.mp hmem with h | h
    · rw [(List.mem_replicate.mp h).2]
      exact dvd_jsDateMs 2024 1 5
    · rw [List.mem_singleton.mp h]
      exact dvd_jsDateMs 2024 1 6
  have hsort : sortStable (sortComparator .createdAt .asc) c5bigList = c5bigList := by
    apply sortStable_of_pairwise
    rw [c5bigList, List.pairwise_append]
    refine ⟨List.pairwise_replicate.mpr (Or.inr (by decide)), by simp, ?_⟩
    intro a ha b hb
    rw [(List.mem_replicate.mp ha).2, List.mem_singleton.mp hb]
    decide
  have hmc : monthContrib c5bigFs "u" 2024 2 1 = List.replicate 1000 c5bigTx := by
    rw [monthContrib]
    show ((sortStable _ c5bigList).take 1000).filter _ = _
    rw [hsort, c5bigList, List.take_left' (List.length_replicate 1000 c5bigTx)]
    rw [List.filter_replicate, if_pos (by decide)]
  have hsum : sumBy (fun t => t.debitAmount) (List.replicate 1000 c5bigTx)
      = 5000 := by
    rw [sumBy_eq_sum, List.map_replicate, List.sum_replicate]
    show (1000 : ℕ) • (5 : Money) = 5000
    rw [nsmul_eq_mul]
    norm_num
  refine ⟨?_, ?_, by norm_num⟩
  · rw [client_monthly_totals c5bigFs "u" 2024 2 hal]
    have hcl : getClients c5bigFs "u"
        = [{ userId := "u", id := 1, createdAt := 0 }] := by
      simp [getClients, sortStable, insertStable, c5bigFs]
    rw [hcl]
    show (0 : Money) + sumBy (fun t => t.debitAmount)
        (monthContrib c5bigFs "u" 2024 2 1) = 5000
    rw [hmc, hsum]
    norm_num
  · have hfil : c5bigList.filter (fun t => inGregorianMonth 2024 2 t.date)
        = List.replicate 1000 c5bigTx ++ [c5bigTx2] := by
      rw [c5bigList, List.filter_append, List.filter_replicate, if_pos (by decide)]
      rfl
    rw [hfil, sumBy_eq_sum]
    norm_num [List.map_append, List.sum_append, List.map_replicate,
      List.sum_replicate, nsmul_eq_mul, c5bigTx, c5bigTx2]
